import Mathlib

/-!
Shallow embedding of the CHAT (.cha) preprocessing pipeline of
`src/prepare_childes.py`: the marker rewrite stages, the scoped-marker
parser (`process_paralinguistic`), the utterance pipeline orchestrator
(`process_utterance`), and the turn aggregator of `process_cha_file`.

Python strings are modelled as `List Char` (converted from `String` at the
API boundary); each `re.sub`/`re.finditer` call is embedded as a bespoke
matcher faithful to the concrete pattern, applied by a generic leftmost
non-overlapping scanner (`scanSub` / the `findAll*` functions).  Exceptions
(`DataIntegrityError`, `AssertionError`, `NotImplementedError`, and the
`ValueError`/`UnboundLocalError` the interpreter itself would raise) are
modelled with `Except Err`.
-/

namespace PyChildes

/-- Python `\s` / `str.strip` whitespace class (ASCII range). -/
def isWS (c : Char) : Bool :=
  c = ' ' || c = '\t' || c = '\n' || c = '\r' || c = '\x0b' || c = '\x0c'

/-- Python `\w` word-character class (ASCII range). -/
def isWord (c : Char) : Bool :=
  c.isAlphanum || c = '_'

/-- Python `\d` digit class. -/
def isDigit (c : Char) : Bool := c.isDigit

/-- Character class `[^<>\s]` used by the disfluency / special-form patterns. -/
def runChar (c : Char) : Bool :=
  !(c = '<' || c = '>' || isWS c)

/-- `pat` occurs as a contiguous sublist of `l` (Python `in` on strings). -/
def isSub (pat : List Char) : List Char → Bool
  | [] => pat.isEmpty
  | c :: rest => pat.isPrefixOf (c :: rest) || isSub pat rest

/-- Python `str.strip()`: drop whitespace from both ends. -/
def strip (l : List Char) : List Char :=
  (l.dropWhile isWS).reverse.dropWhile isWS |>.reverse

/-- A matcher: at the head of the given suffix, either fail or return the
number of characters consumed together with the replacement text. -/
def Mat : Type := List Char → Option (Nat × List Char)

/-- Generic engine for `re.sub`, fuelled for structural recursion: scan
left to right, replace each leftmost non-overlapping match, resume after
the consumed span.  Every step consumes at least one character, so fuel
equal to the input length always suffices. -/
def scanSubF (m : Mat) : Nat → List Char → List Char
  | _, [] => []
  | 0, l => l
  | fuel + 1, c :: rest =>
    match m (c :: rest) with
    | some (n, rep) =>
      if n = 0 then c :: scanSubF m fuel rest
      else rep ++ scanSubF m fuel (rest.drop (n - 1))
    | none => c :: scanSubF m fuel rest

/-- `re.sub` over a whole string. -/
def scanSub (m : Mat) (l : List Char) : List Char :=
  scanSubF m l.length l

/-- Python `s.split(sep)` (fuelled structural recursion). -/
def pySplitF (sep : List Char) : Nat → List Char → List (List Char)
  | _, [] => [[]]
  | 0, l => [l]
  | fuel + 1, c :: rest =>
    if sep.isPrefixOf (c :: rest) && !sep.isEmpty then
      [] :: pySplitF sep fuel (rest.drop (sep.length - 1))
    else
      match pySplitF sep fuel rest with
      | p :: ps => (c :: p) :: ps
      | [] => [[c]]

/-- Python `s.split(sep)`: split at every non-overlapping occurrence. -/
def pySplit (sep l : List Char) : List (List Char) :=
  pySplitF sep l.length l


/-- Matcher for a literal pattern (e.g. `re.sub(r'xxx', …)`). -/
def litMat (pat rep : List Char) : Mat := fun l =>
  if pat.isPrefixOf l && !pat.isEmpty then some (pat.length, rep) else none

/-- Matcher for a single literal character. -/
def charMat (t : Char) (rep : List Char) : Mat := fun l =>
  match l with
  | c :: _ => if c = t then some (1, rep) else none
  | [] => none

/-- Matcher for a literal pattern followed by one `\s` character
(e.g. `re.sub(r'\+\,\s', …)`). -/
def litWsMat (pat rep : List Char) : Mat := fun l =>
  if pat.isPrefixOf l then
    match l.drop pat.length with
    | c :: _ => if isWS c then some (pat.length + 1, rep) else none
    | [] => none
  else none

/-- `process_unidentifiable`: the `unidentifiable` replacement tokens
resolved from the configuration (code defaults in parentheses). -/
structure UnidCfg where
  unintelligible : String := "<unk>"
  /-- stored as the raw optional key: `process_special_form` reads it with
  default `<pho>` while `process_unidentifiable` reads it with default
  `<unk>`. -/
  phonological : Option String := none
  untranscribed : String := "<unk>"
  deriving Repr, DecidableEq

/-- `config.utterance['basic']` options, resolved with the code's
`.get` defaults. -/
structure BasicCfg where
  satellite : Bool := false
  tone : Bool := false
  lengthening : Bool := false
  prim_stress : Bool := false
  blocking : Bool := false
  pause : Bool := false
  deriving Repr, DecidableEq

/-- `config.utterance['linkers']` options. -/
structure LinkerCfg where
  trail_off : Bool := false
  trail_off_q : Bool := false
  exclamation : Bool := false
  interruption : Bool := false
  completion : Bool := false
  interruption_q : Bool := false
  interruption_self : Bool := false
  interruption_self_q : Bool := false
  trans_break : Bool := false
  quote_precede : Bool := false
  quote_follow : Bool := false
  quote_utterance : Bool := false
  uptake : Bool := false
  latching : Bool := false
  deriving Repr, DecidableEq

/-- `config.utterance['incomplete']` options. -/
structure IncompleteCfg where
  noncompletion : Bool := true
  omitted : Bool := true
  deriving Repr, DecidableEq

/-- `config.utterance['scoped']` options. -/
structure ScopedCfg where
  alternative : Bool := false
  excluded : Bool := true
  back_channel : Bool := true
  include_turn : Bool := true
  postcode : Bool := true
  error : Bool := false
  precode : Bool := false
  paralinguistic : String := "ENV"
  explanation : String := "null"
  contra_stressing : String := "stress"
  stressing : String := "stress"
  replacement : Bool := true
  repetition : Bool := false
  retracing : Bool := true
  reformulation : Bool := true
  false_start : Bool := true
  clause : Bool := true
  deriving Repr, DecidableEq

/-- `config.utterance['specform']` options. -/
structure SpecformCfg where
  singing : Bool := true
  sign : Bool := true
  sas : Bool := true
  babbling : String := "<unk>"
  child_invented : String := "<unk>"
  dialect : Bool := true
  filled_pause : Bool := false
  family_spec : String := "<unk>"
  general : Bool := false
  interjections : Bool := true
  multi_letters : Bool := true
  letter : Bool := true
  neologism : Bool := false
  pcf : Bool := false
  metaling : Bool := false
  l2 : Bool := true
  onomatopoeia : Bool := true
  testword : Bool := true
  unibet : Bool := false
  wordplay : String := "<unk>"
  excluded : Bool := false
  deriving Repr, DecidableEq

/-- `config.utterance['disfluency']` options (each one of
`null` / `keep` / `unk` when valid). -/
structure DisflCfg where
  fragment : String := "null"
  filler : String := "null"
  nonwords : String := "null"
  deriving Repr, DecidableEq

/-- `process_unidentifiable(utterance, config)`: three sequential
`re.sub` passes over the literals `xxx`, `yyy`, `www`. -/
def process_unidentifiable (cfg : UnidCfg) (l : List Char) : List Char :=
  let l := scanSub (litMat ['x', 'x', 'x'] cfg.unintelligible.toList) l
  let l := scanSub (litMat ['y', 'y', 'y'] ((cfg.phonological.getD "<unk>").toList)) l
  scanSub (litMat ['w', 'w', 'w'] cfg.untranscribed.toList) l

/-- `config.utterance` options together with the nested stage groups. -/
structure UttCfg where
  keep_data : Bool := true
  keep_speaker : Bool := true
  nonverbal : String := "<0>"
  interposed : Bool := true
  basic : BasicCfg := {}
  linkers : LinkerCfg := {}
  incomplete : IncompleteCfg := {}
  «scoped» : ScopedCfg := {}
  specform : SpecformCfg := {}
  unidentifiable : UnidCfg := {}
  disfluency : DisflCfg := {}
  deriving Repr, DecidableEq

/-- `config.dependent` options. -/
structure DepCfg where
  keep_data : Bool := true
  action_keep_data : Bool := true
  deriving Repr, DecidableEq

/-- `config.header` options. -/
structure HeaderCfg where
  keep_data : Bool := false
  deriving Repr, DecidableEq

/-- The resolved `ChatConfig` view consumed by every stage. -/
structure ChatConfig where
  header : HeaderCfg := {}
  utterance : UttCfg := {}
  dependent : DepCfg := {}
  deriving Repr, DecidableEq

/-- The configuration with every option at its in-code `.get` default. -/
def defaultConfig : ChatConfig := {}

/-- Matcher for `\s\x15.*?\x15` (file-error spans) and `\s\xb7.*?\xb7`
(time marks): a whitespace character, the mark, a shortest run of
non-newline characters, the mark again. -/
def lazyPairMat (mark : Char) : Mat := fun l =>
  match l with
  | a :: b :: rest =>
    if isWS a && b = mark then
      let seg := rest.takeWhile (fun c => !(c = mark))
      if seg.contains '\n' then none
      else
        match rest.drop seg.length with
        | c :: _ => if c = mark then some (2 + seg.length + 1, []) else none
        | [] => none
    else none
  | _ => none

/-- Matcher for the pause pattern
`\(\.{1,}\)\s?|\(\d+\.\d*\)\s?|\(\d+:\d+\.\d*\)\s?|\(\d+:\d+\)\s?\)`
(the trailing `\)` that `process_basic` appends attaches to the last
alternative only).  Alternatives are tried in order. -/
def pauseMat : Mat := fun l =>
  match l with
  | '(' :: rest =>
    -- alternative 1: dots
    let dots := rest.takeWhile (fun c => c = '.')
    let alt1 : Option Nat :=
      if dots.length ≥ 1 then
        match rest.drop dots.length with
        | ')' :: tail =>
          some (1 + dots.length + 1 + (if tail.head?.any isWS then 1 else 0))
        | _ => none
      else none
    -- alternative 2: decimal number
    let d1 := rest.takeWhile isDigit
    let alt2 : Option Nat :=
      if d1.length ≥ 1 then
        match rest.drop d1.length with
        | '.' :: t2 =>
          let d2 := t2.takeWhile isDigit
          match t2.drop d2.length with
          | ')' :: tail =>
            some (1 + d1.length + 1 + d2.length + 1 +
              (if tail.head?.any isWS then 1 else 0))
          | _ => none
        | _ => none
      else none
    -- alternative 3: minute:second.fraction
    let alt3 : Option Nat :=
      if d1.length ≥ 1 then
        match rest.drop d1.length with
        | ':' :: t2 =>
          let d2 := t2.takeWhile isDigit
          if d2.length ≥ 1 then
            match t2.drop d2.length with
            | '.' :: t3 =>
              let d3 := t3.takeWhile isDigit
              match t3.drop d3.length with
              | ')' :: tail =>
                some (1 + d1.length + 1 + d2.length + 1 + d3.length + 1 +
                  (if tail.head?.any isWS then 1 else 0))
              | _ => none
            | _ => none
          else none
        | _ => none
      else none
    -- alternative 4: minute:second followed by a second closing paren
    let alt4 : Option Nat :=
      if d1.length ≥ 1 then
        match rest.drop d1.length with
        | ':' :: t2 =>
          let d2 := t2.takeWhile isDigit
          if d2.length ≥ 1 then
            match t2.drop d2.length with
            | ')' :: tail =>
              -- greedy `\s?` then the extra `\)`, with backtracking
              match tail with
              | c :: ')' :: _ =>
                if isWS c then some (1 + d1.length + 1 + d2.length + 1 + 2)
                else if c = ')' then some (1 + d1.length + 1 + d2.length + 1 + 1)
                else none
              | ')' :: _ => some (1 + d1.length + 1 + d2.length + 1 + 1)
              | _ => none
            | _ => none
          else none
        | _ => none
      else none
    match alt1 <|> alt2 <|> alt3 <|> alt4 with
    | some n => some (n, [])
    | none => none
  | _ => none

/-- `process_basic(utterance, config)`: the unconditional file-error and
time-mark removals followed by the option-guarded symbol rewrites. -/
def process_basic (cfg : BasicCfg) (l : List Char) : List Char :=
  let l := scanSub (lazyPairMat '\x15') l
  let l := scanSub (lazyPairMat '·') l
  let l := if !cfg.satellite then
      scanSub (charMat '„' [',']) (scanSub (charMat '‡' [',']) l) else l
  let l := if !cfg.tone then
      scanSub (charMat '↓' []) (scanSub (charMat '↑' []) l) else l
  let l := if !cfg.lengthening then scanSub (charMat ':' []) l else l
  let l := if !cfg.prim_stress then scanSub (charMat 'ˈ' []) l else l
  let l := if !cfg.prim_stress then scanSub (charMat 'ˌ' []) l else l
  let l := if !cfg.blocking then scanSub (charMat '≠' []) l else l
  let l := if !cfg.pause then
      scanSub (charMat '^' []) (scanSub pauseMat l) else l
  l

/-- `process_linker(utterance, config)`: the ordered sequence of literal
terminator/linker rewrites (all patterns begin with `+`). -/
def process_linker (cfg : LinkerCfg) (l : List Char) : List Char :=
  let l := if !cfg.trail_off then scanSub (litMat ['+', '.', '.', '.'] "...".toList) l else l
  let l := if !cfg.trail_off_q then scanSub (litMat ['+', '.', '.', '?'] "...?".toList) l else l
  let l := if !cfg.exclamation then scanSub (litMat ['+', '!', '?'] "!?".toList) l else l
  let l := if !cfg.interruption then scanSub (litMat ['+', '/', '.'] "...".toList) l else l
  let l := if !cfg.completion then scanSub (litWsMat ['+', ','] []) l else l
  let l := if !cfg.interruption_q then scanSub (litMat ['+', '/', '?'] "...?".toList) l else l
  let l := if !cfg.interruption_self then scanSub (litMat ['+', '/', '/', '.'] "...".toList) l else l
  let l := if !cfg.interruption_self_q then scanSub (litMat ['+', '/', '/', '?'] "...?".toList) l else l
  let l := if !cfg.trans_break then scanSub (litMat ['+', '.'] ".".toList) l else l
  let l := if !cfg.quote_precede then scanSub (litMat ['+', '\x22', '.'] ".".toList) l else l
  let l := if !cfg.quote_follow then scanSub (litMat ['+', '\x22', '/', '.'] ":".toList) l else l
  let l := if !cfg.quote_utterance then scanSub (litWsMat ['+', '\x22'] []) l else l
  let l := if !cfg.uptake then scanSub (litWsMat ['+', '^'] []) l else l
  let l := if !cfg.latching then scanSub (litWsMat ['+', '+'] []) l else l
  l

/-- Matcher for `\((.+?)\)` (noncompletion unwrapping): a parenthesis,
then the lazily shortest non-empty run of non-newline characters up to a
closing parenthesis; the replacement is the captured group. -/
def noncompMat : Mat := fun l =>
  match l with
  | '(' :: rest =>
    match rest with
    | c0 :: cs =>
      if c0 = '\n' then none
      else
        let seg := cs.takeWhile (fun c => !(c = ')'))
        let grp := c0 :: seg
        if grp.contains '\n' then none
        else
          match cs.drop seg.length with
          | ')' :: _ => some (grp.length + 2, grp)
          | _ => none
    | [] => none
  | _ => none

/-- Matcher for `\(.*?\)\s*` (noncompletion deletion, the
`noncompletion: false` branch). -/
def noncompDelMat : Mat := fun l =>
  match l with
  | '(' :: rest =>
    let seg := rest.takeWhile (fun c => !(c = ')'))
    if seg.contains '\n' then none
    else
      match rest.drop seg.length with
      | ')' :: tail =>
        some (seg.length + 2 + (tail.takeWhile isWS).length, [])
      | _ => none
  | _ => none

/-- Matcher for `&=0\w+` (omitted-word marker with POS suffix). -/
def omittedPosMat : Mat := fun l =>
  if ("&=0".toList).isPrefixOf l then
    let w := (l.drop 3).takeWhile isWord
    if w.length ≥ 1 then some (3 + w.length, []) else none
  else none

/-- `process_incomplete(utterance, config)`. -/
def process_incomplete (cfg : IncompleteCfg) (l : List Char) : List Char :=
  let l := if cfg.noncompletion then scanSub noncompMat l
           else scanSub noncompDelMat l
  let l := if cfg.omitted then scanSub (litMat ['&', '=', '0'] []) l
           else scanSub omittedPosMat l
  l

/-- The exceptions the embedded code can raise: `DataIntegrityError`
(with its message), the disfluency configuration error (carrying the
offending configuration fragment), `AssertionError`,
`NotImplementedError`, and the interpreter-level `ValueError` /
`UnboundLocalError` / `IndexError`. -/
inductive Err where
  | dataIntegrity (msg : String)
  | invalidDisfl (field : String) (cfg : DisflCfg)
  | assertionError
  | notImplemented
  | valueError
  | unboundLocal
  | indexError
  deriving Repr, DecidableEq

/-- First result of an option-returning function over a list. -/
def firstSome (f : α → Option β) : List α → Option β
  | [] => none
  | a :: rest =>
    match f a with
    | some b => some b
    | none => firstSome f rest

/-- Matcher for `\+\<\s*` (overlap-start removal). -/
def plusOverlapMat : Mat := fun l =>
  if ("+<".toList).isPrefixOf l then
    some (2 + ((l.drop 2).takeWhile isWS).length, [])
  else none

/-- Candidate base matches of `(?:<([^>]+)>|(\S+))` at the head of `l`,
in the order the regex engine tries them: the angle-delimited alternative
first, then the bare-token alternative with its backtracking split
points, longest first.  Each candidate is `(consumed, captured text)`. -/
def baseCands (l : List Char) : List (Nat × List Char) :=
  let angle : List (Nat × List Char) :=
    match l with
    | '<' :: rest =>
      let content := rest.takeWhile (fun c => !(c = '>'))
      if content.length ≥ 1 then
        match rest.drop content.length with
        | '>' :: _ => [(content.length + 2, content)]
        | _ => []
      else []
    | _ => []
  let run := l.takeWhile (fun c => !(isWS c))
  angle ++ (List.range run.length).reverse.map (fun k => (k + 1, run.take (k + 1)))

/-- Matcher for `(?:<([^>]+)>|(\S+))\s*\[[<>{}]\d*\]` (overlap
brackets); the replacement keeps the captured base text. -/
def overlapBracketMat : Mat := fun l =>
  firstSome (fun cand =>
    let t := l.drop cand.1
    let w := (t.takeWhile isWS).length
    match t.drop w with
    | '[' :: d :: r2 =>
      if d = '<' || d = '>' || d = '\x7b' || d = '\x7d' then
        let ds := r2.takeWhile isDigit
        match r2.drop ds.length with
        | ']' :: _ => some (cand.1 + w + 2 + ds.length + 1, cand.2)
        | _ => none
      else none
    | _ => none) (baseCands l)

/-- The scoped-marker identifiers of `process_paralinguistic`, in the
order produced by `sorted(all_identifiers, key=len, reverse=True)`
(stable within each length). -/
def allIdentifiers : List (List Char) :=
  ["///", "=!", "=?", "!!", "::", "//", "/-", "/?", "^c",
   "=", "!", "#", ":", "%", "?", "/", "x", "*", "e", "+", "-", "^"].map
    String.toList

/-- One identifier block `\[(id)(?:\s*([^\]]*))?\]` at the head of `l`
(no leading whitespace): returns `(consumed, identifier, event)`. -/
def blockCore (l : List Char) : Option (Nat × List Char × List Char) :=
  match l with
  | '[' :: r =>
    match allIdentifiers.find? (fun i => i.isPrefixOf r) with
    | some id =>
      let r2 := r.drop id.length
      let pre := r2.takeWhile (fun c => !(c = ']'))
      match r2.drop pre.length with
      | ']' :: _ =>
        some (1 + id.length + pre.length + 1, id, pre.dropWhile isWS)
      | _ => none
    | none => none
  | _ => none

/-- One identifier block allowing leading `\s*`. -/
def blockAfterWs (l : List Char) : Option (Nat × List Char × List Char) :=
  let w := (l.takeWhile isWS).length
  (blockCore (l.drop w)).map (fun r => (w + r.1, r.2.1, r.2.2))

/-- Total length consumed by the greedy `(?:block)*` repetition
(fuelled structural recursion). -/
def blocksLenF : Nat → List Char → Nat
  | _, [] => 0
  | 0, _ => 0
  | fuel + 1, c :: rest =>
    match blockAfterWs (c :: rest) with
    | some (n, _, _) =>
      if n = 0 then 0 else n + blocksLenF fuel ((c :: rest).drop n)
    | none => 0

/-- Total length consumed by the greedy `(?:block)*` repetition. -/
def blocksLen (l : List Char) : Nat :=
  blocksLenF l.length l

/-- Try the full scoped-marker pattern (base phrase plus one or more
identifier blocks) at the head of `l`: returns
`(total length, base text)`. -/
def paraMatchAt (l : List Char) : Option (Nat × List Char) :=
  firstSome (fun cand =>
    match blockAfterWs (l.drop cand.1) with
    | some (n1, _, _) =>
      if n1 = 0 then none
      else some (cand.1 + n1 + blocksLen (l.drop (cand.1 + n1)), cand.2)
    | none => none) (baseCands l)

/-- One match of the full scoped-marker pattern: absolute span, base
text, and the `(identifier, event)` pairs re-extracted from the part of
the match following the base text. -/
structure ParaMatch where
  start : Nat
  stop : Nat
  text : List Char
  pairs : List (List Char × List Char)
  deriving Repr, DecidableEq

/-- `re.findall` of the identifier-block pattern over a fragment
(fuelled structural recursion). -/
def blockFindAllF : Nat → List Char → List (List Char × List Char)
  | _, [] => []
  | 0, _ => []
  | fuel + 1, c :: rest =>
    match blockCore (c :: rest) with
    | some (n, id, ev) =>
      if n ≤ 1 then (id, ev) :: blockFindAllF fuel rest
      else (id, ev) :: blockFindAllF fuel ((c :: rest).drop n)
    | none => blockFindAllF fuel rest

/-- `re.findall` of the identifier-block pattern over a fragment. -/
def blockFindAll (l : List Char) : List (List Char × List Char) :=
  blockFindAllF l.length l

/-- `re.finditer` of the full scoped-marker pattern: leftmost
non-overlapping matches with absolute offsets (fuelled structural
recursion). -/
def findAllParaF : Nat → Nat → List Char → List ParaMatch
  | _, _, [] => []
  | 0, _, _ => []
  | fuel + 1, pos, c :: rest =>
    match paraMatchAt (c :: rest) with
    | some (n, text) =>
      if n = 0 then findAllParaF fuel (pos + 1) rest
      else
        { start := pos, stop := pos + n, text := text,
          pairs := blockFindAll (((c :: rest).take n).drop text.length) } ::
          findAllParaF fuel (pos + n) ((c :: rest).drop n)
    | none => findAllParaF fuel (pos + 1) rest

/-- `re.finditer` of the full scoped-marker pattern. -/
def findAllPara (pos : Nat) (l : List Char) : List ParaMatch :=
  findAllParaF l.length pos l

/-- `f'<{tag}> {event} <sep> {text} </{tag}>'`. -/
def tagWrap (tag : String) (event text : List Char) : List Char :=
  '<' :: tag.toList ++ '>' :: ' ' :: event ++ " <sep> ".toList ++ text ++
    ' ' :: '<' :: '/' :: tag.toList ++ ['>']

/-- `f'<{tag}> {text} </{tag}>'`. -/
def tagWrapBare (tag : String) (text : List Char) : List Char :=
  '<' :: tag.toList ++ '>' :: ' ' :: text ++
    ' ' :: '<' :: '/' :: tag.toList ++ ['>']

/-- Outcome of handling one `(identifier, event)` pair: early return of a
whole-utterance result, an exception, or replacement spans to append. -/
inductive ParaStep where
  | ret (s : List Char)
  | raise (e : Err)
  | conts (rs : List (Nat × Nat × List Char))
  deriving Repr, DecidableEq

/-- The identifier dispatch of `process_paralinguistic`, transcribed
branch by branch. -/
def handleIdent (cfg : ScopedCfg) (start stop : Nat) (text : List Char)
    (identifier event : List Char) : ParaStep :=
  if identifier = "+".toList then
    if event = "exc".toList then
      if cfg.excluded then .ret [] else .conts [(start, stop, text)]
    else if event = "bch".toList then
      if cfg.back_channel then .ret [] else .conts [(start, stop, text)]
    else if event = "trn".toList then
      if cfg.include_turn then .conts [(start, stop, text)] else .ret []
    else
      if cfg.postcode then .ret [] else .conts [(start, stop, text)]
  else if identifier = "e".toList then
    if cfg.excluded then .conts [(start, stop + 1, [])]
    else .conts [(start, stop, text)]
  else if identifier = "*".toList then
    if cfg.error then .ret [] else .conts [(start, stop + 1, [])]
  else if identifier = "-".toList then
    if cfg.precode then .ret [] else .conts [(start, stop + 1, [])]
  else if identifier = "^".toList || identifier = "=!".toList then
    if cfg.paralinguistic ≠ "null" then
      .conts [(start, stop, tagWrap cfg.paralinguistic event text)]
    else .conts [(start, stop, text)]
  else if identifier = "=?".toList then
    if cfg.alternative then .conts [(start, stop, event)]
    else .conts [(start, stop, text)]
  else if identifier = "=".toList || identifier = "%".toList then
    if cfg.explanation ≠ "null" then
      .conts [(start, stop, tagWrap cfg.explanation event text)]
    else .conts [(start, stop, text)]
  else if identifier = "!!".toList then
    if !event.isEmpty then .raise .assertionError
    else if cfg.contra_stressing ≠ "null" then
      .conts [(start, stop, tagWrapBare cfg.contra_stressing text)]
    else .conts [(start, stop, text)]
  else if identifier = "!".toList then
    if !event.isEmpty then .raise .assertionError
    else if cfg.stressing ≠ "null" then
      .conts [(start, stop, tagWrapBare cfg.stressing text)]
    else .conts [(start, stop, text)]
  else if identifier = "#".toList then .conts [(start, stop, text)]
  else if identifier = "?".toList then .conts [(start, stop, text)]
  else if identifier = ":".toList || identifier = "::".toList then
    if cfg.replacement then .conts [(start, stop, event)]
    else .conts [(start, stop, text)]
  else if identifier = "/".toList || identifier = "x".toList then
    if cfg.repetition then .conts [(start, stop, text)]
    else .conts [(start, stop + 1, [])]
  else if identifier = "//".toList then
    if cfg.retracing then .conts [(start, stop, text ++ " ...".toList)]
    else .conts [(start, stop + 1, [])]
  else if identifier = "///".toList then
    if cfg.reformulation then .conts [(start, stop, text ++ " ...".toList)]
    else .conts [(start, stop + 1, [])]
  else if identifier = "/-".toList then
    if cfg.false_start then .conts [(start, stop, text ++ " ...".toList)]
    else .conts [(start, stop + 1, [])]
  else if identifier = "^c".toList then
    if cfg.clause then .conts [(start, stop, text)]
    else .conts [(start, stop + 1, [])]
  else .conts []

/-- Process the `(identifier, event)` pairs of one match in order,
accumulating replacement spans, with early return / raise. -/
def stepPairs (cfg : ScopedCfg) (start stop : Nat) (text : List Char)
    (acc : List (Nat × Nat × List Char)) :
    List (List Char × List Char) → ParaStep
  | [] => .conts acc
  | p :: rest =>
    match handleIdent cfg start stop text p.1 p.2 with
    | .ret s => .ret s
    | .raise e => .raise e
    | .conts rs => stepPairs cfg start stop text (acc ++ rs) rest

/-- Process the matches in order. -/
def stepMatches (cfg : ScopedCfg) (acc : List (Nat × Nat × List Char)) :
    List ParaMatch → ParaStep
  | [] => .conts acc
  | m :: ms =>
    match stepPairs cfg m.start m.stop m.text acc m.pairs with
    | .ret s => .ret s
    | .raise e => .raise e
    | .conts acc2 => stepMatches cfg acc2 ms

/-- Lexicographic strict comparison of Python strings (by code point). -/
def strLt : List Char → List Char → Bool
  | [], [] => false
  | [], _ :: _ => true
  | _ :: _, [] => false
  | a :: as, b :: bs => if a = b then strLt as bs else decide (a < b)

/-- Python tuple `<` on `(start, end, replacement)` triples. -/
def replLt (a b : Nat × Nat × List Char) : Bool :=
  decide (a.1 < b.1) ||
    (decide (a.1 = b.1) &&
      (decide (a.2.1 < b.2.1) ||
        (decide (a.2.1 = b.2.1) && strLt a.2.2 b.2.2)))

/-- Insert into a descending-sorted list (`sorted(…, reverse=True)`). -/
def insertDesc (x : Nat × Nat × List Char) :
    List (Nat × Nat × List Char) → List (Nat × Nat × List Char)
  | [] => [x]
  | y :: ys => if replLt x y then y :: insertDesc x ys else x :: y :: ys

/-- `sorted(replacements, reverse=True)`. -/
def sortDesc (l : List (Nat × Nat × List Char)) :
    List (Nat × Nat × List Char) :=
  l.foldr insertDesc []

/-- `utterance[:start] + replacement + utterance[end:]` (Python slices
clamp out-of-range indices). -/
def applyRepl (s : List Char) (r : Nat × Nat × List Char) : List Char :=
  s.take r.1 ++ r.2.2 ++ s.drop r.2.1

/-- Apply the replacement spans in list order. -/
def applyAll (rs : List (Nat × Nat × List Char)) (s : List Char) :
    List Char :=
  rs.foldl applyRepl s

/-- `process_paralinguistic(utterance, config)`: overlap-mark removal,
scan for scoped-marker matches, identifier dispatch with whole-utterance
veto / assertion, then application of the collected spans in descending
start order. -/
def process_paralinguistic (cfg : ScopedCfg) (l : List Char) :
    Except Err (List Char) :=
  if cfg.alternative then .error .notImplemented
  else
    let l := scanSub plusOverlapMat l
    let l := scanSub overlapBracketMat l
    match stepMatches cfg [] (findAllPara 0 l) with
    | .ret s => .ok s
    | .raise e => .error e
    | .conts rs => .ok (applyAll (sortDesc rs) l)

/-- Is the character at index `i` of `r` a word character
(`false` beyond the end)? -/
def wordAt (r : List Char) (i : Nat) : Bool :=
  match r.drop i with
  | c :: _ => isWord c
  | [] => false

/-- `\b` check at the position after a tag ending in a letter: the next
character must not be a word character (characters beyond the scanned
`[^<>\s]+` run are `<`, `>`, whitespace, or the end, all non-word). -/
def boundaryOkAt (r : List Char) (pos : Nat) : Bool :=
  match r.drop pos with
  | [] => true
  | c :: _ => !isWord c

/-- Backtracking search of `[^<>\s]+@tag\b` inside the run `r`: the
largest split `k ≥ 1` such that `tag` sits at offset `k` with a word
boundary after it. -/
def findAtTag (r tag : List Char) : Option Nat :=
  (List.range r.length).reverse.find? (fun k =>
    decide (1 ≤ k) && tag.isPrefixOf (r.drop k) &&
      boundaryOkAt r (k + tag.length))

/-- Matcher for `([^<>\s]+)@tag\b` with replacement built from the
captured base by `mk`. -/
def specMat (tag : List Char) (mk : List Char → List Char) : Mat := fun l =>
  let r := l.takeWhile runChar
  match findAtTag r tag with
  | some k => some (k + tag.length, mk (r.take k))
  | none => none

/-- Matcher for `\s*[^<>\s]+@tag\b\s*` with replacement a single
space (the `@fp` / `@g` deletion forms). -/
def specWsMat (tag : List Char) : Mat := fun l =>
  let w := (l.takeWhile isWS).length
  let t := l.drop w
  let r := t.takeWhile runChar
  match findAtTag r tag with
  | some k =>
    let rest := k + tag.length
    let trail := if rest < r.length then 0
                 else ((t.drop r.length).takeWhile isWS).length
    some (w + rest + trail, [' '])
  | none => none

/-- Backtracking search of the trailing `[^<>\s]+\b` of the
second-language pattern: the largest `j ≥ 1` with a word boundary
between offsets `s + j - 1` and `s + j` of the run. -/
def langTail (r : List Char) (s : Nat) : Option Nat :=
  (List.range (r.length - s + 1)).reverse.find? (fun j =>
    decide (1 ≤ j) && decide (s + j ≤ r.length) &&
      (wordAt r (s + j - 1) != wordAt r (s + j)))

/-- Backtracking search of the `([^<>\s]+)@s[:$]` head of the
second-language pattern inside the run `r`: the largest split `k ≥ 1`
with `@s`, a `:`/`$` separator, and a completable tail. -/
def findLang (r : List Char) : Option Nat :=
  (List.range r.length).reverse.find? (fun k =>
    decide (1 ≤ k) && ("@s".toList).isPrefixOf (r.drop k) &&
      (match r.drop (k + 2) with
       | c :: _ => c = ':' || c = '$'
       | [] => false) && (langTail r (k + 3)).isSome)

/-- Matcher for `([^<>\s]+)@s[:$][^<>\s]+\b`: `rep = none` keeps the
captured base, `rep = some u` replaces the whole match with `u`. -/
def specLangMat (rep : Option (List Char)) : Mat := fun l =>
  let r := l.takeWhile runChar
  match findLang r with
  | some k =>
    match langTail r (k + 3) with
    | some j => some (k + 3 + j, rep.getD (r.take k))
    | none => none
  | none => none

/-- `process_special_form(utterance, config)`: the ordered sequence of
`@`-form rewrites, each guarded by its `specform` option. -/
def process_special_form (u : UttCfg) (l : List Char) : List Char :=
  let env_tag := u.«scoped».paralinguistic
  let pho_tag := u.unidentifiable.phonological.getD "<pho>"
  -- singing (@si)
  let l := if u.specform.singing then
      scanSub (specMat ['@', 's', 'i'] (fun g => tagWrap env_tag "sings".toList g)) l
    else scanSub (specMat ['@', 's', 'i'] (fun g => g)) l
  -- sign language (@sl)
  let l := if u.specform.sign then
      scanSub (specMat ['@', 's', 'l']
        (fun g => tagWrap env_tag "sign language".toList g)) l
    else scanSub (specMat ['@', 's', 'l'] (fun g => g)) l
  -- sign and speech (@sas): the code reuses the @sl pattern
  let l := if u.specform.sas then
      scanSub (specMat ['@', 's', 'l']
        (fun g => tagWrap env_tag "sign language".toList g)) l
    else scanSub (specMat ['@', 's', 'l'] (fun g => g)) l
  -- babbling (@b)
  let l := scanSub (specMat ['@', 'b'] (fun _ => u.specform.babbling.toList)) l
  -- child-invented forms (@c)
  let l := scanSub (specMat ['@', 'c'] (fun _ => u.specform.child_invented.toList)) l
  -- dialect form (@d)
  let l := if u.specform.dialect then scanSub (specMat ['@', 'd'] (fun g => g)) l
    else scanSub (specMat ['@', 'd'] (fun _ => "<unk>".toList)) l
  -- filled pause (@fp)
  let l := if u.specform.filled_pause then
      scanSub (specMat ['@', 'f', 'p'] (fun _ => "<unk>".toList)) l
    else scanSub (specWsMat ['@', 'f', 'p']) l
  -- family-specific forms (@f)
  let l := scanSub (specMat ['@', 'f'] (fun _ => u.specform.family_spec.toList)) l
  -- general special form (@g)
  let l := if u.specform.general then
      scanSub (specMat ['@', 'g'] (fun _ => "<unk>".toList)) l
    else scanSub (specWsMat ['@', 'g']) l
  -- interjections (@i)
  let l := if u.specform.interjections then scanSub (specMat ['@', 'i'] (fun g => g)) l
    else scanSub (specMat ['@', 'i'] (fun _ => "<unk>".toList)) l
  -- multi-letters (@k)
  let l := if u.specform.multi_letters then
      scanSub (specMat ['@', 'k']
        (fun g => (g.intersperse ' ').map Char.toUpper)) l
    else scanSub (specMat ['@', 'k'] (fun _ => "<unk>".toList)) l
  -- letter (@l)
  let l := if u.specform.letter then
      scanSub (specMat ['@', 'l'] (fun g => g.map Char.toUpper)) l
    else scanSub (specMat ['@', 'l'] (fun _ => "<unk>".toList)) l
  -- neologism (@n)
  let l := if u.specform.neologism then
      scanSub (specMat ['@', 'n'] (fun g => g ++ " <neo>".toList)) l
    else scanSub (specMat ['@', 'n'] (fun g => g)) l
  -- phonological consistent forms (@p)
  let l := if u.specform.pcf then scanSub (specMat ['@', 'p'] (fun g => g)) l
    else scanSub (specMat ['@', 'p'] (fun _ => "<unk>".toList)) l
  -- metalinguistics (@q)
  let l := if u.specform.metaling then
      scanSub (specMat ['@', 'q'] (fun g => '\x22' :: g ++ ['\x22'])) l
    else scanSub (specMat ['@', 'q'] (fun g => g)) l
  -- second language (@s)
  let l := if u.specform.l2 then scanSub (specLangMat none) l
    else scanSub (specLangMat (some "<unk>".toList)) l
  -- onomatopoeias (@o)
  let l := if u.specform.onomatopoeia then
      scanSub (specMat ['@', 'o']
        (fun g => g.map (fun c => if c = '_' then ' ' else c))) l
    else scanSub (specMat ['@', 'o'] (fun _ => "<unk>".toList)) l
  -- test word (@t)
  let l := if u.specform.testword then scanSub (specMat ['@', 't'] (fun g => g)) l
    else scanSub (specMat ['@', 't'] (fun _ => "<unk>".toList)) l
  -- unibet (@u)
  let l := if u.specform.unibet then scanSub (specMat ['@', 'u'] (fun g => g)) l
    else scanSub (specMat ['@', 'u'] (fun _ => pho_tag.toList)) l
  -- word play (@wp)
  let l := scanSub (specMat ['@', 'w', 'p'] (fun _ => u.specform.wordplay.toList)) l
  -- excluded words (@x)
  let l := if u.specform.excluded then scanSub (specMat ['@', 'x'] (fun g => g)) l
    else scanSub (specMat ['@', 'x'] (fun _ => "<unk>".toList)) l
  l

/-- Matcher for the simple local-event pattern `&=(\w+)(?::(\w+))?`:
returns the consumed length and the assembled event text. -/
def simpleEvMat (l : List Char) : Option (Nat × List Char) :=
  match l with
  | '&' :: '=' :: r =>
    let verb := r.takeWhile isWord
    if verb.length = 0 then none
    else
      match r.drop verb.length with
      | ':' :: r2 =>
        let noun := r2.takeWhile isWord
        if noun.length = 0 then some (2 + verb.length, verb)
        else some (2 + verb.length + 1 + noun.length, verb ++ ' ' :: noun)
      | _ => some (2 + verb.length, verb)
  | _ => none

/-- Index of the first occurrence of `pat` in `l`. -/
def findSubIdx (pat : List Char) : List Char → Option Nat
  | [] => if pat.isEmpty then some 0 else none
  | c :: rest =>
    if pat.isPrefixOf (c :: rest) then some 0
    else (findSubIdx pat rest).map (· + 1)

/-- Matcher for the complex local-event pattern
`&\{(l|n)=(\w+)(?::(\w+))?\s*(.*?)\s*&}\1=\2(?::\3)?`: opening tag, the
lazily earliest matching closing tag (the details in between, once
whitespace-trimmed, may not contain a newline), and the greedy optional
`:noun` echo on the closing tag. -/
def complexEvMat (l : List Char) : Option (Nat × List Char) :=
  match l with
  | '&' :: '\x7b' :: k :: '=' :: r =>
    if k = 'l' || k = 'n' then
      let verb := r.takeWhile isWord
      if verb.length = 0 then none
      else
        let afterVerb := r.drop verb.length
        let noun : Option (List Char) :=
          match afterVerb with
          | ':' :: r2 =>
            let n := r2.takeWhile isWord
            if n.length = 0 then none else some n
          | _ => none
        let nounLen := match noun with | some n => 1 + n.length | none => 0
        let body := afterVerb.drop nounLen
        let close0 := '&' :: '\x7d' :: k :: '=' :: verb
        match findSubIdx close0 body with
        | some idx =>
          let between := body.take idx
          let details := strip between
          if details.contains '\n' then none
          else
            let closeExtra :=
              match noun with
              | some n =>
                if (':' :: n).isPrefixOf (body.drop (idx + close0.length))
                then 1 + n.length else 0
              | none => 0
            let event :=
              match noun with
              | some n => strip (verb ++ ' ' :: n ++ ' ' :: details)
              | none => strip (verb ++ ' ' :: details)
            some (4 + verb.length + nounLen + idx + close0.length + closeExtra,
              event)
        | none => none
    else none
  | _ => none

/-- `re.finditer` for a local-event matcher, with absolute offsets
(fuelled structural recursion). -/
def findAllEvF (mat : List Char → Option (Nat × List Char)) :
    Nat → Nat → List Char → List (Nat × Nat × List Char)
  | _, _, [] => []
  | 0, _, _ => []
  | fuel + 1, pos, c :: rest =>
    match mat (c :: rest) with
    | some (n, ev) =>
      if n = 0 then findAllEvF mat fuel (pos + 1) rest
      else (pos, pos + n, ev) ::
        findAllEvF mat fuel (pos + n) ((c :: rest).drop n)
    | none => findAllEvF mat fuel (pos + 1) rest

/-- `re.finditer` for a local-event matcher. -/
def findAllEv (mat : List Char → Option (Nat × List Char)) (pos : Nat)
    (l : List Char) : List (Nat × Nat × List Char) :=
  findAllEvF mat l.length pos l

/-- `process_local_event(utterance, config)`: collect the simple and the
complex event matches, then apply their replacements in descending
start order. -/
def process_local_event (u : UttCfg) (l : List Char) : List Char :=
  let env_tag := u.«scoped».paralinguistic
  let nv := u.nonverbal.toList
  let mkRep : List Char → List Char := fun ev =>
    if env_tag ≠ "null" then tagWrap env_tag ev nv else nv
  let simple := (findAllEv simpleEvMat 0 l).map (fun r => (r.1, r.2.1, mkRep r.2.2))
  let cplx := (findAllEv complexEvMat 0 l).map (fun r => (r.1, r.2.1, mkRep r.2.2))
  applyAll (sortDesc (simple ++ cplx)) l

/-- Matcher for `&m[^<>\s]+\s+` (disfluency drop mode). -/
def disflNullMat (m : Char) : Mat := fun l =>
  match l with
  | '&' :: c :: rest =>
    if c = m then
      let run := rest.takeWhile runChar
      if run.length = 0 then none
      else
        let ws := (rest.drop run.length).takeWhile isWS
        if ws.length = 0 then none
        else some (2 + run.length + ws.length, [])
    else none
  | _ => none

/-- Matcher for `&m([^<>\s]+\s+)` with replacement `\1` (keep mode). -/
def disflKeepMat (m : Char) : Mat := fun l =>
  match l with
  | '&' :: c :: rest =>
    if c = m then
      let run := rest.takeWhile runChar
      if run.length = 0 then none
      else
        let ws := (rest.drop run.length).takeWhile isWS
        if ws.length = 0 then none
        else some (2 + run.length + ws.length, run ++ ws)
    else none
  | _ => none

/-- Matcher for `&m[^<>\s]+` with replacement `<unk>` (unk mode). -/
def disflUnkMat (m : Char) : Mat := fun l =>
  match l with
  | '&' :: c :: rest =>
    if c = m then
      let run := rest.takeWhile runChar
      if run.length = 0 then none
      else some (2 + run.length, "<unk>".toList)
    else none
  | _ => none

/-- One disfluency family: dispatch on the configured handling mode,
raising on an unrecognized value. -/
def disflPass (m : Char) (field : String) (handle : String)
    (cfg : DisflCfg) (l : List Char) : Except Err (List Char) :=
  if handle = "null" then .ok (scanSub (disflNullMat m) l)
  else if handle = "keep" then .ok (scanSub (disflKeepMat m) l)
  else if handle = "unk" then .ok (scanSub (disflUnkMat m) l)
  else .error (.invalidDisfl field cfg)

/-- `process_disfluencies(utterance, config)`: fragments (`&+`), fillers
(`&-`), nonwords (`&~`), in that order. -/
def process_disfluencies (cfg : DisflCfg) (l : List Char) :
    Except Err (List Char) := do
  let l ← disflPass '+' "fragment" cfg.fragment cfg l
  let l ← disflPass '-' "filler" cfg.filler cfg l
  disflPass '~' "nonwords" cfg.nonwords cfg l

/-- The value `process_utterance` returns: the code's annotation promises
a triple `(bool, str, str)` but one branch returns a bare pair. -/
inductive PyRet where
  | pair (keep : Bool) (s : String)
  | triple (keep : Bool) (speaker text : String)
  deriving Repr, DecidableEq

/-- Whether a returned value is a well-formed `(bool, str, str)` triple. -/
def PyRet.isTriple : PyRet → Bool
  | .triple _ _ _ => true
  | _ => false

/-- The sequence of rewrite stages `process_utterance` applies to the
utterance text, in their mandated order: basic, linkers, incomplete,
paralinguistic, special forms, nonverbal-symbol substitution, local
events, disfluencies, unidentifiable markers. -/
def stagePipeline (config : ChatConfig) (l : List Char) :
    Except Err (List Char) :=
  let l := process_basic config.utterance.basic l
  let l := process_linker config.utterance.linkers l
  let l := process_incomplete config.utterance.incomplete l
  match process_paralinguistic config.utterance.«scoped» l with
  | .error e => .error e
  | .ok l =>
    let l := process_special_form config.utterance l
    let l := scanSub (charMat '0' config.utterance.nonverbal.toList) l
    let l := process_local_event config.utterance l
    match process_disfluencies config.utterance.disfluency l with
    | .error e => .error e
    | .ok l => .ok (process_unidentifiable config.utterance.unidentifiable l)

/-- `process_utterance(input_line, config)`: split on the speaker
separator, the `keep_data` short-circuit, speaker token construction,
then the rewrite stages. -/
def process_utterance (config : ChatConfig) (input_line : String) :
    Except Err PyRet :=
  match pySplit [':', '\t'] input_line.toList with
  | [speaker_id, utterance] =>
    if !config.utterance.keep_data then .ok (.pair false "")
    else
      let speaker :=
        if config.utterance.keep_speaker then
          String.mk ('<' :: speaker_id.drop 1 ++ ['>'])
        else ""
      match stagePipeline config utterance with
      | .error e => .error e
      | .ok l => .ok (.triple true speaker (String.mk l))
  | _ => .error (.dataIntegrity ("Invalid utterance format: " ++ input_line))

/-- `process_header(input_line, config)`. -/
def process_header (config : ChatConfig) (input_line : String) :
    Bool × String :=
  (config.header.keep_data, input_line)

/-- `process_dependent_tier(input_line, config)`: returns
`(keep, tier, processed line)`. -/
def process_dependent_tier (config : ChatConfig) (input_line : String) :
    Except Err (Bool × String × String) :=
  match pySplit [':', '\t'] input_line.toList with
  | [tier0, content] =>
    let tier := String.mk (tier0.drop 1)
    if !config.dependent.keep_data then .ok (false, tier, "")
    else if tier = "act" || tier = "sit" || tier = "gpx" then
      let env_tag := config.utterance.«scoped».paralinguistic
      if config.dependent.action_keep_data && env_tag ≠ "null" then
        .ok (true, tier,
          String.mk (tagWrap env_tag (strip content)
            config.utterance.nonverbal.toList ++ ['\n']))
      else .ok (false, tier, "")
    else .ok (false, tier, "")
  | _ =>
    .error (.dataIntegrity ("Invalid dependent tier format: " ++ input_line))

/-- Python `s.split(sep, 1)`: split at the first occurrence only. -/
def splitOnceL (sep l : List Char) : List (List Char) :=
  match findSubIdx sep l with
  | some i => [l.take i, l.drop (i + sep.length)]
  | none => [l]

/-- Python `s.split(' ')`: split at every single space, keeping empty
pieces. -/
def pySplitSpace : List Char → List (List Char)
  | [] => [[]]
  | c :: rest =>
    if c = ' ' then [] :: pySplitSpace rest
    else
      match pySplitSpace rest with
      | p :: ps => (c :: p) :: ps
      | [] => [[c]]

/-- `split_interposed(input_line, config)`: reconstruct an interposed
(`&*`) utterance as separate speaker-labelled lines.  The first
reconstructed line reproduces the source's literal (non-interpolated)
template string, and a line without the marker hits the source's
unbound local variable. -/
def split_interposed (config : ChatConfig) (input_line : String) :
    Except Err (List String) :=
  match splitOnceL ":\t".toList input_line.toList with
  | [sid, utt] =>
    if isSub "&*".toList utt then
      match splitOnceL "&*".toList utt with
      | [first_part, remaining] =>
        match splitOnceL [':'] remaining with
        | [interpose_speaker, second_part0] =>
          let second_part := strip second_part0
          if config.utterance.interposed then
            .ok ["\x7bspeaker_id\x7d:\t\x7bfirst_part.strip()\x7d +.",
              String.mk ('*' :: interpose_speaker ++ ':' :: '\t' ::
                second_part.takeWhile (fun c => !(c = ' ')) ++ " .".toList),
              String.mk (sid ++ ':' :: '\t' ::
                List.intercalate [' '] ((pySplitSpace second_part).drop 1) ++
                ['\n'])]
          else
            .ok [String.mk (sid ++ ':' :: '\t' :: strip first_part ++ ' ' ::
              List.intercalate [' '] ((pySplitSpace second_part).drop 1) ++
              ['\n'])]
        | _ => .error .valueError
      | _ => .error .valueError
    else .error .unboundLocal
  | _ => .error .valueError

/-- One match of `(<[^>]+>)\s+([^<]+)`: consumed length, the tag with
its angle brackets, and the event body (the `\s+`/`[^<]+` backtracking
can leave a single whitespace character as the body). -/
def syncMat (l : List Char) : Option (Nat × List Char × List Char) :=
  match l with
  | '<' :: r =>
    let name := r.takeWhile (fun c => !(c = '>'))
    if name.length = 0 then none
    else
      match r.drop name.length with
      | '>' :: r2 =>
        let ws := r2.takeWhile isWS
        if ws.length = 0 then none
        else
          let body := (r2.drop ws.length).takeWhile (fun c => !(c = '<'))
          if body.length = 0 then
            if ws.length ≥ 2 then
              some (2 + name.length + ws.length,
                '<' :: name ++ ['>'], ws.drop (ws.length - 1))
            else none
          else
            some (2 + name.length + ws.length + body.length,
              '<' :: name ++ ['>'], body)
      | _ => none
  | _ => none

/-- `re.findall` of the synchrony pattern (fuelled structural
recursion). -/
def findAllSyncF : Nat → List Char → List (List Char × List Char)
  | _, [] => []
  | 0, _ => []
  | fuel + 1, c :: rest =>
    match syncMat (c :: rest) with
    | some (n, tag, body) =>
      if n = 0 then findAllSyncF fuel rest
      else (tag, body) :: findAllSyncF fuel ((c :: rest).drop n)
    | none => findAllSyncF fuel rest

/-- `re.findall` of the synchrony pattern. -/
def findAllSync (l : List Char) : List (List Char × List Char) :=
  findAllSyncF l.length l

/-- An insertion-ordered dictionary from bucket name to event list
(Python dict semantics: assignment keeps an existing key's position). -/
def dictSet (key : String) (val : List String) :
    List (String × List String) → List (String × List String)
  | [] => [(key, val)]
  | (k, v) :: rest =>
    if k = key then (k, val) :: rest else (k, v) :: dictSet key val rest

/-- `env_dict[key].append(x)` (the key is pre-seeded for `env_dur`). -/
def dictAppend (key : String) (x : String) :
    List (String × List String) → List (String × List String)
  | [] => [(key, [x])]
  | (k, v) :: rest =>
    if k = key then (k, v ++ [x]) :: rest else (k, v) :: dictAppend key x rest

/-- The tag-dispatch loop of `split_sync_rel`: `<aft>` and `<bef>`
assign a fresh singleton list (overwriting), `<dur>` and unknown tags
append to the during bucket. -/
def syncFold (ms : List (List Char × List Char))
    (d : List (String × List String)) : List (String × List String) :=
  ms.foldl (fun d p =>
    let action := strip p.2
    if p.1 = "<aft>".toList then
      dictSet "env_aft" [String.mk (strip action)] d
    else if p.1 = "<bef>".toList then
      dictSet "env_bef" [String.mk (strip action)] d
    else if p.1 = "<dur>".toList then
      dictAppend "env_dur" (String.mk (strip action)) d
    else dictAppend "env_dur" (String.mk (strip action)) d) d

/-- `split_sync_rel(input_line, config)`: split the tier line, default
untagged leading content to `<dur>`, collect the tagged sub-events. -/
def split_sync_rel (_config : ChatConfig) (input_line : String) :
    Except Err (List (String × List String)) :=
  match pySplit [':', '\t'] input_line.toList with
  | [_tier, content] =>
    match content with
    | [] => .error .indexError
    | c0 :: _ =>
      let content' :=
        if !(c0 = '<') then "<dur> ".toList ++ content
        else content
      .ok (syncFold (findAllSync content') [("env_dur", [])])
  | _ =>
    .error (.dataIntegrity ("Invalid dependent tier format: " ++ input_line))

/-- The aggregation unit of `process_cha_file` (class `UnitTurn`). -/
structure UnitTurn where
  speaker : String := ""
  head : List String := []
  utt : List String := []
  sit : List String := []
  env_bef : List String := []
  env_dur : List String := []
  env_aft : List String := []
  deriving Repr, DecidableEq

/-- `UnitTurn.update(content, attribute)`: append to a list attribute,
overwrite a string attribute, raise on an unknown attribute name. -/
def UnitTurn.update (t : UnitTurn) (content attr : String) :
    Except Err UnitTurn :=
  if attr = "speaker" then .ok { t with speaker := content }
  else if attr = "head" then .ok { t with head := t.head ++ [content] }
  else if attr = "utt" then .ok { t with utt := t.utt ++ [content] }
  else if attr = "sit" then .ok { t with sit := t.sit ++ [content] }
  else if attr = "env_bef" then
    .ok { t with env_bef := t.env_bef ++ [content] }
  else if attr = "env_dur" then
    .ok { t with env_dur := t.env_dur ++ [content] }
  else if attr = "env_aft" then
    .ok { t with env_aft := t.env_aft ++ [content] }
  else .error (.dataIntegrity ("Attribute " ++ attr ++ " does not exist."))

/-- `UnitTurn.to_list()`: the fixed emission order — head, situation,
before-events, during-events, utterance, after-events. -/
def UnitTurn.to_list (t : UnitTurn) : List String :=
  t.head ++ t.sit ++ t.env_bef ++ t.env_dur ++ t.utt ++ t.env_aft

/-- The loop state of `process_cha_file`: emitted lines so far and the
open turn. -/
structure LoopState where
  processed : List String := []
  turn : UnitTurn := {}
  deriving Repr, DecidableEq

/-- The interposed-speech sub-loop of the utterance branch. -/
def stepInterposed (config : ChatConfig) (processed : List String)
    (turn : UnitTurn) : List String → Except Err LoopState
  | [] => .ok ⟨processed, turn⟩
  | ls :: rest =>
    match process_utterance config ls with
    | .error e => .error e
    | .ok (.pair _ _) => .error .valueError
    | .ok (.triple keep speaker l) =>
      if keep then do
        let t ← turn.update speaker "speaker"
        let t ← t.update (speaker ++ " " ++ l) "utt"
        stepInterposed config processed t rest
      else stepInterposed config processed turn rest

/-- The inner event loop of the synchrony branch for one bucket. -/
def stepSyncEvents (config : ChatConfig) (st : LoopState)
    (order : String) : List String → Except Err LoopState
  | [] => .ok st
  | ev :: rest =>
    match process_dependent_tier config ("%act:\t" ++ ev) with
    | .error e => .error e
    | .ok (keep, _tier, l) =>
      if keep then do
        let t ← st.turn.update l order
        stepSyncEvents config { st with turn := t } order rest
      else stepSyncEvents config st order rest

/-- The outer `ordered_events.items()` loop of the synchrony branch. -/
def stepSync (config : ChatConfig) (st : LoopState) :
    List (String × List String) → Except Err LoopState
  | [] => .ok st
  | (order, evs) :: rest => do
    let st2 ← stepSyncEvents config st order evs
    stepSync config st2 rest

/-- Python `line.startswith(c)` for a single character. -/
def startsWithCh (c : Char) (s : String) : Bool :=
  match s.toList with
  | x :: _ => x = c
  | [] => false

/-- One iteration of the `for line in lines` loop of
`process_cha_file`: dispatch on the line's leading character; an
utterance line first flushes the open turn into the emitted list. -/
def stepLine (config : ChatConfig) (st : LoopState) (line : String) :
    Except Err LoopState :=
  if startsWithCh '@' line then
    let r := process_header config line
    if r.1 then do
      let t ← st.turn.update r.2 "head"
      .ok { st with turn := t }
    else .ok st
  else if startsWithCh '*' line then
    let processed := st.processed ++ st.turn.to_list
    let turn : UnitTurn := {}
    if !isSub "&*".toList line.toList then
      match process_utterance config line with
      | .error e => .error e
      | .ok (.pair _ _) => .error .valueError
      | .ok (.triple keep speaker l) =>
        if keep then do
          let t ← turn.update speaker "speaker"
          let t ← t.update (speaker ++ " " ++ l) "utt"
          .ok ⟨processed, t⟩
        else .ok ⟨processed, turn⟩
    else
      match split_interposed config line with
      | .error e => .error e
      | .ok ls => stepInterposed config processed turn ls
  else if startsWithCh '%' line then
    if !line.toList.contains '<' then
      match process_dependent_tier config line with
      | .error e => .error e
      | .ok (keep, _tier, l) =>
        if keep then do
          let t ← st.turn.update l "env_dur"
          .ok { st with turn := t }
        else .ok st
    else
      match split_sync_rel config line with
      | .error e => .error e
      | .ok envs => stepSync config st envs
  else .error (.dataIntegrity line)

/-- The full line loop. -/
def runSteps (config : ChatConfig) : LoopState → List String →
    Except Err LoopState
  | st, [] => .ok st
  | st, line :: rest => do
    let st2 ← stepLine config st line
    runSteps config st2 rest

/-- The line-processing core of `process_cha_file`: run every line, then
flush the final open turn. -/
def process_cha_lines (config : ChatConfig) (lines : List String) :
    Except Err (List String) := do
  let st ← runSteps config {} lines
  .ok (st.processed ++ st.turn.to_list)

/-- The characters that can trigger some rewrite stage under the default
configuration. -/
def forbiddenChars : List Char :=
  ['\x15', '·', '‡', '„', '↑', '↓', ':', 'ˈ', 'ˌ', '≠', '(', '^', '+',
   '&', '@', '0', '[']

/-- Marker-free text: no stage-trigger character and none of the
three-letter unidentifiable tokens as substrings. -/
def cleanText (l : List Char) : Bool :=
  l.all (fun c => !forbiddenChars.contains c) &&
  !isSub ['x', 'x', 'x'] l && !isSub ['y', 'y', 'y'] l &&
  !isSub ['w', 'w', 'w'] l

/-- The three recognized disfluency handling modes. -/
def validHandle (h : String) : Bool :=
  h = "null" || h = "keep" || h = "unk"

/-- Whether an embedded call raised. -/
def isErr {α : Type} : Except Err α → Bool
  | .error _ => true
  | .ok _ => false

/-- The configuration fragment attached to a disfluency configuration
error, when the result is such an error. -/
def disflPayload {α : Type} : Except Err α → Option DisflCfg
  | .error (.invalidDisfl _ c) => some c
  | _ => none

/-- Is the sub-event tagged `<bef>`? -/
def isBefP (p : List Char × List Char) : Bool := p.1 = "<bef>".toList

/-- Is the sub-event tagged `<aft>`? -/
def isAftP (p : List Char × List Char) : Bool := p.1 = "<aft>".toList

/-- A sub-event that lands in the during bucket (`<dur>` or any
unknown tag). -/
def isDurP (p : List Char × List Char) : Bool := !isBefP p && !isAftP p

/-- The stored event text of a sub-event. -/
def evStr (p : List Char × List Char) : String :=
  String.mk (strip (strip p.2))

/-- The during-bucket contents contributed by a sub-event list: every
`<dur>`-tagged or unknown-tagged sub-event, in order. -/
def durEvents (ms : List (List Char × List Char)) : List String :=
  (ms.filter isDurP).map evStr

/-- The single surviving sub-event for an overwrite bucket: the last
one satisfying the tag predicate. -/
def lastTagged (q : List Char × List Char → Bool)
    (ms : List (List Char × List Char)) :
    Option (List Char × List Char) :=
  (ms.filter q).getLast?

/-! ### Identity lemmas: a rewrite pass is a no-op on text free of its
trigger characters. -/

/-- If the matcher fails on every suffix, `scanSubF` is the identity. -/
theorem scanSubF_eq_self (m : Mat) :
    ∀ (fuel : Nat) (l : List Char), (∀ t, t <:+ l → m t = none) →
      scanSubF m fuel l = l := by
  intro fuel
  induction fuel with
  | zero => intro l _; cases l <;> rfl
  | succ f ih =>
    intro l h
    cases l with
    | nil => rfl
    | cons c rest =>
      simp only [scanSubF, h (c :: rest) (List.suffix_refl _)]
      rw [ih rest (fun t ht => h t (ht.trans (List.suffix_cons c rest)))]

/-- If the matcher fails on every suffix, `scanSub` is the identity. -/
theorem scanSub_eq_self {m : Mat} {l : List Char}
    (h : ∀ t, t <:+ l → m t = none) : scanSub m l = l :=
  scanSubF_eq_self m l.length l h

/-- If every successful match contains the trigger character `τ` and `l`
avoids `τ`, the pass is the identity. -/
theorem scanSub_id_char {m : Mat} {τ : Char}
    (hm : ∀ t, m t ≠ none → τ ∈ t) {l : List Char} (h : τ ∉ l) :
    scanSub m l = l :=
  scanSub_eq_self (fun t ht => by
    by_contra hne
    exact h (ht.subset (hm t hne)))

/-- A `Bool`-prefix implies membership of every pattern character. -/
theorem isPre_mem : ∀ (pat l : List Char), pat.isPrefixOf l = true →
    ∀ c ∈ pat, c ∈ l := by
  intro pat
  induction pat with
  | nil => intro l _ c hc; exact absurd hc (List.not_mem_nil c)
  | cons a as ih =>
    intro l h c hc
    cases l with
    | nil => simp [List.isPrefixOf] at h
    | cons b bs =>
      simp only [List.isPrefixOf, Bool.and_eq_true, beq_iff_eq] at h
      rcases List.mem_cons.mp hc with rfl | hc
      · exact h.1 ▸ List.mem_cons_self b bs
      · exact List.mem_cons_of_mem b (ih bs h.2 c hc)

theorem charMat_mem {t : Char} {rep : List Char} :
    ∀ l, charMat t rep l ≠ none → t ∈ l := by
  intro l h
  cases l with
  | nil => exact absurd rfl h
  | cons c rest =>
    by_cases hc : c = t
    · exact hc ▸ List.mem_cons_self c rest
    · exfalso; apply h; simp [charMat, hc]

theorem litMat_mem {pat rep : List Char} {τ : Char} (hτ : τ ∈ pat) :
    ∀ l, litMat pat rep l ≠ none → τ ∈ l := by
  intro l h
  unfold litMat at h
  by_cases hp : pat.isPrefixOf l
  · exact isPre_mem pat l hp τ hτ
  · simp [hp] at h

theorem litWsMat_mem {pat rep : List Char} {τ : Char} (hτ : τ ∈ pat) :
    ∀ l, litWsMat pat rep l ≠ none → τ ∈ l := by
  intro l h
  unfold litWsMat at h
  by_cases hp : pat.isPrefixOf l
  · exact isPre_mem pat l hp τ hτ
  · simp [hp] at h

theorem lazyPairMat_mem {mark : Char} :
    ∀ l, lazyPairMat mark l ≠ none → mark ∈ l := by
  intro l h
  match l with
  | [] => exact absurd rfl h
  | [a] => exact absurd rfl h
  | a :: b :: rest =>
    by_cases hb : b = mark
    · exact hb ▸ List.mem_cons_of_mem a (List.mem_cons_self b rest)
    · exfalso; apply h; simp [lazyPairMat, hb]

theorem pauseMat_mem : ∀ l, pauseMat l ≠ none → '(' ∈ l := by
  intro l h
  unfold pauseMat at h
  match l with
  | [] => exact absurd rfl h
  | c :: rest =>
    by_cases hc : c = '('
    · exact hc ▸ List.mem_cons_self c rest
    · exfalso
      apply h
      cases c <;> simp_all [pauseMat]

theorem noncompMat_mem : ∀ l, noncompMat l ≠ none → '(' ∈ l := by
  intro l h
  unfold noncompMat at h
  match l with
  | [] => exact absurd rfl h
  | c :: rest =>
    by_cases hc : c = '('
    · exact hc ▸ List.mem_cons_self c rest
    · exfalso; apply h; cases c <;> simp_all [noncompMat]

theorem noncompDelMat_mem : ∀ l, noncompDelMat l ≠ none → '(' ∈ l := by
  intro l h
  unfold noncompDelMat at h
  match l with
  | [] => exact absurd rfl h
  | c :: rest =>
    by_cases hc : c = '('
    · exact hc ▸ List.mem_cons_self c rest
    · exfalso; apply h; cases c <;> simp_all [noncompDelMat]

theorem omittedPosMat_mem : ∀ l, omittedPosMat l ≠ none → '&' ∈ l := by
  intro l h
  unfold omittedPosMat at h
  by_cases hp : (['&', '=', '0'] : List Char).isPrefixOf l
  · exact isPre_mem _ l hp '&' (by decide)
  · simp [hp] at h

theorem plusOverlapMat_mem : ∀ l, plusOverlapMat l ≠ none → '+' ∈ l := by
  intro l h
  by_cases hp : ("+<".toList).isPrefixOf l
  · exact isPre_mem _ l hp '+' (by decide)
  · exfalso; apply h
    unfold plusOverlapMat
    rw [if_neg hp]

theorem mem_of_mem_takeWhile {p : Char → Bool} {c : Char} :
    ∀ {l : List Char}, c ∈ l.takeWhile p → c ∈ l := by
  intro l
  induction l with
  | nil => intro h; simpa using h
  | cons a rest ih =>
    intro h
    rw [List.takeWhile_cons] at h
    by_cases hp : p a
    · rw [if_pos hp] at h
      rcases List.mem_cons.mp h with hca | h
      · rw [hca]; exact List.mem_cons_self a rest
      · exact List.mem_cons_of_mem a (ih h)
    · rw [if_neg hp] at h; simp at h

theorem firstSome_ne_none {α β : Type} {f : α → Option β} :
    ∀ {xs : List α}, firstSome f xs ≠ none → ∃ x ∈ xs, f x ≠ none := by
  intro xs
  induction xs with
  | nil => intro h; exact absurd rfl h
  | cons a rest ih =>
    intro h
    rw [firstSome] at h
    cases hfa : f a with
    | some b =>
      exact ⟨a, List.mem_cons_self a rest, by simp [hfa]⟩
    | none =>
      rw [hfa] at h
      obtain ⟨x, hx, hfx⟩ := ih h
      exact ⟨x, List.mem_cons_of_mem a hx, hfx⟩

theorem blockCore_mem : ∀ t, blockCore t ≠ none → '[' ∈ t := by
  intro t h
  match t with
  | [] => exact absurd rfl h
  | c :: rest =>
    by_cases hc : c = '['
    · exact hc ▸ List.mem_cons_self c rest
    · exfalso; apply h; simp [blockCore, hc]

theorem blockAfterWs_mem : ∀ t, blockAfterWs t ≠ none → '[' ∈ t := by
  intro t h
  simp only [blockAfterWs] at h
  have hcore : blockCore (t.drop (t.takeWhile isWS).length) ≠ none := by
    intro hn; rw [hn] at h; exact h rfl
  exact List.drop_subset _ _ (blockCore_mem _ hcore)

theorem paraMatchAt_mem : ∀ l, paraMatchAt l ≠ none → '[' ∈ l := by
  intro l h
  unfold paraMatchAt at h
  obtain ⟨x, _, hfx⟩ := firstSome_ne_none h
  have hb : blockAfterWs (l.drop x.1) ≠ none := by
    intro hn; rw [hn] at hfx; exact hfx rfl
  exact List.drop_subset _ _ (blockAfterWs_mem _ hb)

theorem overlapBracketMat_mem :
    ∀ l, overlapBracketMat l ≠ none → '[' ∈ l := by
  intro l h
  simp only [overlapBracketMat] at h
  obtain ⟨x, _, hfx⟩ := firstSome_ne_none h
  have hin : '[' ∈ (l.drop x.1).drop ((l.drop x.1).takeWhile isWS).length := by
    cases hveq : (l.drop x.1).drop ((l.drop x.1).takeWhile isWS).length with
    | nil => rw [hveq] at hfx; exact absurd rfl hfx
    | cons c v' =>
      rw [hveq] at hfx
      by_cases hc : c = '['
      · rw [hc]; exact List.mem_cons_self '[' v'
      · exfalso; apply hfx
        cases v' <;> simp [hc]
  exact List.drop_subset _ _ (List.drop_subset _ _ hin)

theorem findAtTag_mem {r tag : List Char} (htag : '@' ∈ tag)
    (h : findAtTag r tag ≠ none) : '@' ∈ r := by
  unfold findAtTag at h
  cases hf : (List.range r.length).reverse.find?
      (fun k => decide (1 ≤ k) && tag.isPrefixOf (r.drop k) &&
        boundaryOkAt r (k + tag.length)) with
  | none => rw [hf] at h; exact absurd rfl h
  | some k =>
    have hp := List.find?_some hf
    simp only [Bool.and_eq_true] at hp
    exact List.drop_subset _ _ (isPre_mem tag _ hp.1.2 '@' htag)

theorem specMat_mem {tg : List Char} {mk : List Char → List Char} :
    ∀ l, specMat ('@' :: tg) mk l ≠ none → '@' ∈ l := by
  intro l h
  simp only [specMat] at h
  cases hf : findAtTag (l.takeWhile runChar) ('@' :: tg) with
  | none => rw [hf] at h; exact absurd rfl h
  | some k =>
    exact mem_of_mem_takeWhile
      (findAtTag_mem (List.mem_cons_self _ _) (by rw [hf]; exact fun hn => Option.noConfusion hn))

theorem specWsMat_mem {tg : List Char} :
    ∀ l, specWsMat ('@' :: tg) l ≠ none → '@' ∈ l := by
  intro l h
  simp only [specWsMat] at h
  cases hf : findAtTag ((l.drop (l.takeWhile isWS).length).takeWhile runChar)
      ('@' :: tg) with
  | none => rw [hf] at h; exact absurd rfl h
  | some k =>
    have h1 : '@' ∈ (l.drop (l.takeWhile isWS).length).takeWhile runChar :=
      findAtTag_mem (List.mem_cons_self _ _)
        (by rw [hf]; exact fun hn => Option.noConfusion hn)
    exact List.drop_subset _ _ (mem_of_mem_takeWhile h1)

theorem findLang_mem {r : List Char} (h : findLang r ≠ none) : '@' ∈ r := by
  unfold findLang at h
  cases hf : (List.range r.length).reverse.find?
      (fun k => decide (1 ≤ k) && ("@s".toList).isPrefixOf (r.drop k) &&
        (match r.drop (k + 2) with
         | c :: _ => c = ':' || c = '$'
         | [] => false) && (langTail r (k + 3)).isSome) with
  | none => rw [hf] at h; exact absurd rfl h
  | some k =>
    have hp := List.find?_some hf
    simp only [Bool.and_eq_true] at hp
    exact List.drop_subset _ _ (isPre_mem _ _ hp.1.1.2 '@' (by decide))

theorem specLangMat_mem {rep : Option (List Char)} :
    ∀ l, specLangMat rep l ≠ none → '@' ∈ l := by
  intro l h
  simp only [specLangMat] at h
  cases hf : findLang (l.takeWhile runChar) with
  | none => rw [hf] at h; exact absurd rfl h
  | some k =>
    exact mem_of_mem_takeWhile
      (findLang_mem (by rw [hf]; exact fun hn => Option.noConfusion hn))

theorem simpleEvMat_mem : ∀ t, simpleEvMat t ≠ none → '&' ∈ t := by
  intro t h
  match t with
  | [] => exact absurd rfl h
  | c :: rest =>
    by_cases hc : c = '&'
    · exact hc ▸ List.mem_cons_self c rest
    · exfalso; apply h
      cases rest <;> simp [simpleEvMat, hc]

theorem complexEvMat_mem : ∀ t, complexEvMat t ≠ none → '&' ∈ t := by
  intro t h
  match t with
  | [] => exact absurd rfl h
  | c :: rest =>
    by_cases hc : c = '&'
    · exact hc ▸ List.mem_cons_self c rest
    · exfalso; apply h
      match rest with
      | [] => simp [complexEvMat, hc]
      | [_] => simp [complexEvMat, hc]
      | [_, _] => simp [complexEvMat, hc]
      | _ :: _ :: _ :: _ => simp [complexEvMat, hc]

theorem disflNullMat_mem {m : Char} :
    ∀ t, disflNullMat m t ≠ none → '&' ∈ t := by
  intro t h
  match t with
  | [] => exact absurd rfl h
  | c :: rest =>
    by_cases hc : c = '&'
    · exact hc ▸ List.mem_cons_self c rest
    · exfalso; apply h
      cases rest <;> simp [disflNullMat, hc]

theorem findAllParaF_nil :
    ∀ (fuel pos : Nat) (l : List Char), '[' ∉ l →
      findAllParaF fuel pos l = [] := by
  intro fuel
  induction fuel with
  | zero => intro pos l _; cases l <;> rfl
  | succ f ih =>
    intro pos l h
    cases l with
    | nil => rfl
    | cons c rest =>
      have hp : paraMatchAt (c :: rest) = none := by
        by_contra hne
        exact h (paraMatchAt_mem _ hne)
      simp only [findAllParaF, hp]
      exact ih (pos + 1) rest (fun hm => h (List.mem_cons_of_mem c hm))

theorem findAllPara_nil {pos : Nat} {l : List Char} (h : '[' ∉ l) :
    findAllPara pos l = [] :=
  findAllParaF_nil l.length pos l h

theorem findAllEvF_nil {mat : List Char → Option (Nat × List Char)}
    {τ : Char} (hmem : ∀ t, mat t ≠ none → τ ∈ t) :
    ∀ (fuel pos : Nat) (l : List Char), τ ∉ l →
      findAllEvF mat fuel pos l = [] := by
  intro fuel
  induction fuel with
  | zero => intro pos l _; cases l <;> rfl
  | succ f ih =>
    intro pos l h
    cases l with
    | nil => rfl
    | cons c rest =>
      have hp : mat (c :: rest) = none := by
        by_contra hne
        exact h (hmem _ hne)
      simp only [findAllEvF, hp]
      exact ih (pos + 1) rest (fun hm => h (List.mem_cons_of_mem c hm))

theorem findAllEv_nil {mat : List Char → Option (Nat × List Char)}
    {τ : Char} (hmem : ∀ t, mat t ≠ none → τ ∈ t) {pos : Nat}
    {l : List Char} (h : τ ∉ l) : findAllEv mat pos l = [] :=
  findAllEvF_nil hmem l.length pos l h

/-- A pattern that is not a substring fails as a prefix of every
suffix. -/
theorem isSub_false_not_pre {pat : List Char} :
    ∀ {l : List Char}, isSub pat l = false →
      ∀ t, t <:+ l → pat.isPrefixOf t = false := by
  intro l
  induction l with
  | nil =>
    intro hs t ht
    rw [List.suffix_nil.mp ht]
    unfold isSub at hs
    cases pat with
    | nil => simp at hs
    | cons a as => simp [List.isPrefixOf]
  | cons c rest ih =>
    intro hs t ht
    unfold isSub at hs
    rw [Bool.or_eq_false_iff] at hs
    rcases List.suffix_cons_iff.mp ht with heq | ht'
    · rw [heq]; exact hs.1
    · exact ih hs.2 t ht'

/-! Per-pass no-op corollaries, shaped for `simp`. -/

theorem scanSub_charMat_id {τ : Char} {rep : List Char} {l : List Char}
    (h : τ ∉ l) : scanSub (charMat τ rep) l = l :=
  scanSub_id_char charMat_mem h

theorem scanSub_lazyPair_id {mark : Char} {l : List Char} (h : mark ∉ l) :
    scanSub (lazyPairMat mark) l = l :=
  scanSub_id_char lazyPairMat_mem h

theorem scanSub_pauseMat_id {l : List Char} (h : '(' ∉ l) :
    scanSub pauseMat l = l :=
  scanSub_id_char pauseMat_mem h

theorem scanSub_litMat_head {τ : Char} {p rep : List Char}
    {l : List Char} (h : τ ∉ l) : scanSub (litMat (τ :: p) rep) l = l :=
  scanSub_id_char (litMat_mem (List.mem_cons_self τ p)) h

theorem scanSub_litWsMat_head {τ : Char} {p rep : List Char}
    {l : List Char} (h : τ ∉ l) : scanSub (litWsMat (τ :: p) rep) l = l :=
  scanSub_id_char (litWsMat_mem (List.mem_cons_self τ p)) h

theorem scanSub_noncompMat_id {l : List Char} (h : '(' ∉ l) :
    scanSub noncompMat l = l :=
  scanSub_id_char noncompMat_mem h

theorem scanSub_noncompDelMat_id {l : List Char} (h : '(' ∉ l) :
    scanSub noncompDelMat l = l :=
  scanSub_id_char noncompDelMat_mem h

theorem scanSub_omittedPosMat_id {l : List Char} (h : '&' ∉ l) :
    scanSub omittedPosMat l = l :=
  scanSub_id_char omittedPosMat_mem h

theorem scanSub_plusOverlap_id {l : List Char} (h : '+' ∉ l) :
    scanSub plusOverlapMat l = l :=
  scanSub_id_char plusOverlapMat_mem h

theorem scanSub_overlapBracket_id {l : List Char} (h : '[' ∉ l) :
    scanSub overlapBracketMat l = l :=
  scanSub_id_char overlapBracketMat_mem h

theorem scanSub_specMat_id {tg : List Char} {mk : List Char → List Char}
    {l : List Char} (h : '@' ∉ l) : scanSub (specMat ('@' :: tg) mk) l = l :=
  scanSub_id_char specMat_mem h

theorem scanSub_specWsMat_id {tg : List Char} {l : List Char}
    (h : '@' ∉ l) : scanSub (specWsMat ('@' :: tg)) l = l :=
  scanSub_id_char specWsMat_mem h

theorem scanSub_specLangMat_id {rep : Option (List Char)} {l : List Char}
    (h : '@' ∉ l) : scanSub (specLangMat rep) l = l :=
  scanSub_id_char specLangMat_mem h

theorem scanSub_disflNullMat_id {m : Char} {l : List Char} (h : '&' ∉ l) :
    scanSub (disflNullMat m) l = l :=
  scanSub_id_char disflNullMat_mem h

theorem scanSub_litMat_notSub {pat rep : List Char} {l : List Char}
    (h : isSub pat l = false) : scanSub (litMat pat rep) l = l :=
  scanSub_eq_self (fun t ht => by
    simp [litMat, isSub_false_not_pre h t ht])

/-! Stage-level no-op theorems. -/

theorem process_basic_id (cfg : BasicCfg) {l : List Char}
    (h15 : '\x15' ∉ l) (hmd : '·' ∉ l) (hdd : '‡' ∉ l) (hlq : '„' ∉ l)
    (hup : '↑' ∉ l) (hdn : '↓' ∉ l) (hco : ':' ∉ l) (hp1 : 'ˈ' ∉ l)
    (hp2 : 'ˌ' ∉ l) (hbl : '≠' ∉ l) (hpa : '(' ∉ l) (hcr : '^' ∉ l) :
    process_basic cfg l = l := by
  simp only [process_basic, scanSub_lazyPair_id h15, scanSub_lazyPair_id hmd,
    scanSub_charMat_id hdd, scanSub_charMat_id hlq, scanSub_charMat_id hup,
    scanSub_charMat_id hdn, scanSub_charMat_id hco, scanSub_charMat_id hp1,
    scanSub_charMat_id hp2, scanSub_charMat_id hbl, scanSub_pauseMat_id hpa,
    scanSub_charMat_id hcr, ite_self]

theorem process_linker_id (cfg : LinkerCfg) {l : List Char}
    (h : '+' ∉ l) : process_linker cfg l = l := by
  simp only [process_linker, scanSub_litMat_head h, scanSub_litWsMat_head h,
    ite_self]

theorem process_incomplete_id (cfg : IncompleteCfg) {l : List Char}
    (hpa : '(' ∉ l) (ha : '&' ∉ l) : process_incomplete cfg l = l := by
  simp only [process_incomplete, scanSub_noncompMat_id hpa,
    scanSub_noncompDelMat_id hpa, scanSub_litMat_head ha,
    scanSub_omittedPosMat_id ha, ite_self]

theorem process_paralinguistic_id {cfg : ScopedCfg}
    (halt : cfg.alternative = false) {l : List Char}
    (hplus : '+' ∉ l) (hbr : '[' ∉ l) :
    process_paralinguistic cfg l = .ok l := by
  simp only [process_paralinguistic, halt, Bool.false_eq_true, if_false,
    scanSub_plusOverlap_id hplus, scanSub_overlapBracket_id hbr,
    findAllPara_nil hbr]
  rfl

theorem process_special_form_id (u : UttCfg) {l : List Char}
    (h : '@' ∉ l) : process_special_form u l = l := by
  simp only [process_special_form, scanSub_specMat_id h,
    scanSub_specWsMat_id h, scanSub_specLangMat_id h, ite_self]

theorem process_local_event_id (u : UttCfg) {l : List Char}
    (h : '&' ∉ l) : process_local_event u l = l := by
  simp only [process_local_event, findAllEv_nil simpleEvMat_mem h,
    findAllEv_nil complexEvMat_mem h, List.map_nil, List.append_nil]
  rfl

theorem process_disfluencies_id {l : List Char} (h : '&' ∉ l) :
    process_disfluencies {} l = .ok l := by
  simp only [process_disfluencies, disflPass, scanSub_disflNullMat_id h]
  simp [bind, Except.bind, scanSub_disflNullMat_id h]

theorem process_unidentifiable_id (cfg : UnidCfg) {l : List Char}
    (hx : isSub ['x', 'x', 'x'] l = false)
    (hy : isSub ['y', 'y', 'y'] l = false)
    (hw : isSub ['w', 'w', 'w'] l = false) :
    process_unidentifiable cfg l = l := by
  simp only [process_unidentifiable, scanSub_litMat_notSub hx,
    scanSub_litMat_notSub hy, scanSub_litMat_notSub hw]

theorem cleanText_not_mem {l : List Char} (h : cleanText l = true)
    {τ : Char} (hτ : τ ∈ forbiddenChars) : τ ∉ l := by
  intro hmem
  unfold cleanText at h
  simp only [Bool.and_eq_true, List.all_eq_true] at h
  have h2 := h.1.1.1 τ hmem
  simp at h2
  exact h2 hτ

theorem stagePipeline_id {l : List Char} (h : cleanText l = true) :
    stagePipeline defaultConfig l = .ok l := by
  have hsub : isSub ['x', 'x', 'x'] l = false ∧
      isSub ['y', 'y', 'y'] l = false ∧
      isSub ['w', 'w', 'w'] l = false := by
    unfold cleanText at h
    simp only [Bool.and_eq_true, Bool.not_eq_true'] at h
    exact ⟨h.1.1.2, h.1.2, h.2⟩
  have n15 := cleanText_not_mem h (by decide : '\x15' ∈ forbiddenChars)
  have nmd := cleanText_not_mem h (by decide : '·' ∈ forbiddenChars)
  have ndd := cleanText_not_mem h (by decide : '‡' ∈ forbiddenChars)
  have nlq := cleanText_not_mem h (by decide : '„' ∈ forbiddenChars)
  have nup := cleanText_not_mem h (by decide : '↑' ∈ forbiddenChars)
  have ndn := cleanText_not_mem h (by decide : '↓' ∈ forbiddenChars)
  have nco := cleanText_not_mem h (by decide : ':' ∈ forbiddenChars)
  have np1 := cleanText_not_mem h (by decide : 'ˈ' ∈ forbiddenChars)
  have np2 := cleanText_not_mem h (by decide : 'ˌ' ∈ forbiddenChars)
  have nbl := cleanText_not_mem h (by decide : '≠' ∈ forbiddenChars)
  have npa := cleanText_not_mem h (by decide : '(' ∈ forbiddenChars)
  have ncr := cleanText_not_mem h (by decide : '^' ∈ forbiddenChars)
  have npl := cleanText_not_mem h (by decide : '+' ∈ forbiddenChars)
  have nam := cleanText_not_mem h (by decide : '&' ∈ forbiddenChars)
  have nat := cleanText_not_mem h (by decide : '@' ∈ forbiddenChars)
  have nze := cleanText_not_mem h (by decide : '0' ∈ forbiddenChars)
  have nbr := cleanText_not_mem h (by decide : '[' ∈ forbiddenChars)
  simp only [stagePipeline, defaultConfig,
    process_basic_id _ n15 nmd ndd nlq nup ndn nco np1 np2 nbl npa ncr,
    process_linker_id _ npl,
    process_incomplete_id _ npa nam,
    @process_paralinguistic_id ({} : ScopedCfg) rfl l npl nbr,
    process_special_form_id _ nat,
    scanSub_charMat_id nze,
    process_local_event_id _ nam,
    process_disfluencies_id nam,
    process_unidentifiable_id _ hsub.1 hsub.2.1 hsub.2.2]

/-! ### Characterization of the nonverbal-symbol substitution (C5). -/

theorem scanSubF_charMat_flatMap (t : Char) (marker : List Char) :
    ∀ (l : List Char) (fuel : Nat), l.length ≤ fuel →
      scanSubF (charMat t marker) fuel l =
        l.flatMap (fun c => if c = t then marker else [c]) := by
  intro l
  induction l with
  | nil => intro fuel _; cases fuel <;> simp [scanSubF]
  | cons c rest ih =>
    intro fuel hf
    cases fuel with
    | zero => simp at hf
    | succ f =>
      have hr : rest.length ≤ f := by
        simp only [List.length_cons] at hf; omega
      by_cases hc : c = t
      · simp [scanSubF, charMat, hc, ih f hr]
      · simp [scanSubF, charMat, hc, ih f hr]

/-! ### Disfluency-mode dispatch lemmas (C7). -/

theorem disflPass_ok {handle : String} (h : validHandle handle = true)
    (m : Char) (field : String) (cfg : DisflCfg) (l : List Char) :
    ∃ l2, disflPass m field handle cfg l = .ok l2 := by
  unfold validHandle at h
  simp only [Bool.or_eq_true, decide_eq_true_eq] at h
  unfold disflPass
  rcases h with (h | h) | h
  · rw [if_pos h]; exact ⟨_, rfl⟩
  · rw [if_neg (by rw [h]; decide), if_pos h]; exact ⟨_, rfl⟩
  · rw [if_neg (by rw [h]; decide), if_neg (by rw [h]; decide), if_pos h]
    exact ⟨_, rfl⟩

theorem disflPass_err {handle : String} (h : validHandle handle = false)
    (m : Char) (field : String) (cfg : DisflCfg) (l : List Char) :
    disflPass m field handle cfg l = .error (.invalidDisfl field cfg) := by
  unfold validHandle at h
  simp only [Bool.or_eq_false_iff, decide_eq_false_iff_not] at h
  unfold disflPass
  rw [if_neg h.1.1, if_neg h.1.2, if_neg h.2]

/-! ### Synchrony fold characterization (C9). -/

theorem lookup_dictSet_same (k : String) (v : List String) :
    ∀ d, (dictSet k v d).lookup k = some v := by
  intro d
  induction d with
  | nil => simp [dictSet, List.lookup]
  | cons p rest ih =>
    by_cases hk : p.1 = k
    · simp [dictSet, hk, List.lookup]
    · have hbeq : (k == p.1) = false :=
        beq_eq_false_iff_ne.mpr (fun he => hk he.symm)
      simp [dictSet, hk, List.lookup, hbeq, ih]

theorem lookup_dictSet_other {k k' : String} (hne : k' ≠ k)
    (v : List String) : ∀ d, (dictSet k v d).lookup k' = d.lookup k' := by
  intro d
  induction d with
  | nil =>
    have hbeq : (k' == k) = false := beq_eq_false_iff_ne.mpr hne
    simp [dictSet, List.lookup, hbeq]
  | cons p rest ih =>
    by_cases hk : p.1 = k
    · have hbeq : (k' == p.1) = false :=
        beq_eq_false_iff_ne.mpr (fun he => hne (he.trans hk))
      have hbeq2 : (k' == k) = false := beq_eq_false_iff_ne.mpr hne
      simp [dictSet, hk, List.lookup, hbeq, hbeq2]
    · by_cases hk' : k' = p.1
      · simp [dictSet, hk, List.lookup, hk']
      · have hbeq : (k' == p.1) = false := beq_eq_false_iff_ne.mpr hk'
        simp [dictSet, hk, List.lookup, hbeq, ih]

theorem lookup_dictAppend_same (k : String) (x : String) :
    ∀ d, (dictAppend k x d).lookup k =
      some ((d.lookup k).getD [] ++ [x]) := by
  intro d
  induction d with
  | nil => simp [dictAppend, List.lookup]
  | cons p rest ih =>
    by_cases hk : p.1 = k
    · simp [dictAppend, hk, List.lookup]
    · have hbeq : (k == p.1) = false :=
        beq_eq_false_iff_ne.mpr (fun he => hk he.symm)
      simp [dictAppend, hk, List.lookup, hbeq, ih]

theorem lookup_dictAppend_other {k k' : String} (hne : k' ≠ k)
    (x : String) : ∀ d, (dictAppend k x d).lookup k' = d.lookup k' := by
  intro d
  induction d with
  | nil =>
    have hbeq : (k' == k) = false := beq_eq_false_iff_ne.mpr hne
    simp [dictAppend, List.lookup, hbeq]
  | cons p rest ih =>
    by_cases hk : p.1 = k
    · by_cases hk' : k' = p.1
      · exact absurd (hk'.trans hk) hne
      · have hbeq : (k' == p.1) = false := beq_eq_false_iff_ne.mpr hk'
        have hbeq2 : (k' == k) = false := beq_eq_false_iff_ne.mpr hne
        simp [dictAppend, hk, List.lookup, hbeq, hbeq2]
    · by_cases hk' : k' = p.1
      · simp [dictAppend, hk, List.lookup, hk']
      · have hbeq : (k' == p.1) = false := beq_eq_false_iff_ne.mpr hk'
        simp [dictAppend, hk, List.lookup, hbeq, ih]

theorem syncFold_cons (p : List Char × List Char)
    (ms : List (List Char × List Char))
    (d : List (String × List String)) :
    syncFold (p :: ms) d = syncFold ms (
      if p.1 = "<aft>".toList then dictSet "env_aft" [evStr p] d
      else if p.1 = "<bef>".toList then dictSet "env_bef" [evStr p] d
      else dictAppend "env_dur" (evStr p) d) := by
  simp only [syncFold, List.foldl_cons, evStr]
  congr 1
  by_cases ha : p.1 = "<aft>".toList <;> by_cases hb : p.1 = "<bef>".toList <;>
    simp [ha, hb]

theorem syncFold_dur :
    ∀ (ms : List (List Char × List Char))
      (d : List (String × List String)) (v : List String),
      d.lookup "env_dur" = some v →
      (syncFold ms d).lookup "env_dur" = some (v ++ durEvents ms) := by
  intro ms
  induction ms with
  | nil => intro d v hv; simp [syncFold, durEvents, hv]
  | cons p ms ih =>
    intro d v hv
    rw [syncFold_cons]
    by_cases ha : p.1 = "<aft>".toList
    · have hd : isDurP p = false := by simp [isDurP, isAftP, ha]
      rw [if_pos ha,
        ih _ v (by rw [lookup_dictSet_other (by decide)]; exact hv)]
      simp [durEvents, List.filter_cons, hd]
    · by_cases hb : p.1 = "<bef>".toList
      · have hd : isDurP p = false := by simp [isDurP, isBefP, hb]
        rw [if_neg ha, if_pos hb,
          ih _ v (by rw [lookup_dictSet_other (by decide)]; exact hv)]
        simp [durEvents, List.filter_cons, hd]
      · have ha2 : ¬p.1 = ['<', 'a', 'f', 't', '>'] := by simpa using ha
        have hb2 : ¬p.1 = ['<', 'b', 'e', 'f', '>'] := by simpa using hb
        have hd : isDurP p = true := by
          simp [isDurP, isBefP, isAftP, ha2, hb2]
        rw [if_neg ha, if_neg hb,
          ih _ (v ++ [evStr p]) (by rw [lookup_dictAppend_same]; simp [hv])]
        simp [durEvents, List.filter_cons, hd]

theorem syncFold_bef :
    ∀ (ms : List (List Char × List Char))
      (d : List (String × List String)),
      (syncFold ms d).lookup "env_bef" =
        (lastTagged isBefP ms).elim (d.lookup "env_bef")
          (fun p => some [evStr p]) := by
  intro ms
  induction ms with
  | nil => intro d; simp [syncFold, lastTagged]
  | cons p ms ih =>
    intro d
    rw [syncFold_cons]
    by_cases ha : p.1 = "<aft>".toList
    · have hq : isBefP p = false := by simp [isBefP, ha]
      rw [if_pos ha, ih]
      simp [lastTagged, List.filter_cons, hq,
        lookup_dictSet_other (show "env_bef" ≠ "env_aft" by decide)]
    · by_cases hb : p.1 = "<bef>".toList
      · have hq : isBefP p = true := by simp [isBefP, hb]
        rw [if_neg ha, if_pos hb, ih]
        simp only [lastTagged, List.filter_cons, hq, if_pos,
          List.getLast?_cons, lookup_dictSet_same]
        cases hlast : (ms.filter isBefP).getLast? with
        | none => simp [hlast]
        | some q => simp [hlast]
      · have hb2 : ¬p.1 = ['<', 'b', 'e', 'f', '>'] := by simpa using hb
        have hq : isBefP p = false := by simp [isBefP, hb2]
        rw [if_neg ha, if_neg hb, ih]
        simp [lastTagged, List.filter_cons, hq,
          lookup_dictAppend_other (show "env_bef" ≠ "env_dur" by decide)]

theorem syncFold_aft :
    ∀ (ms : List (List Char × List Char))
      (d : List (String × List String)),
      (syncFold ms d).lookup "env_aft" =
        (lastTagged isAftP ms).elim (d.lookup "env_aft")
          (fun p => some [evStr p]) := by
  intro ms
  induction ms with
  | nil => intro d; simp [syncFold, lastTagged]
  | cons p ms ih =>
    intro d
    rw [syncFold_cons]
    by_cases ha : p.1 = "<aft>".toList
    · have hq : isAftP p = true := by simp [isAftP, ha]
      rw [if_pos ha, ih]
      simp only [lastTagged, List.filter_cons, hq, if_pos,
        List.getLast?_cons, lookup_dictSet_same]
      cases hlast : (ms.filter isAftP).getLast? with
      | none => simp [hlast]
      | some q => simp [hlast]
    · have ha2 : ¬p.1 = ['<', 'a', 'f', 't', '>'] := by simpa using ha
      have hq : isAftP p = false := by simp [isAftP, ha2]
      by_cases hb : p.1 = "<bef>".toList
      · rw [if_neg ha, if_pos hb, ih]
        simp [lastTagged, List.filter_cons, hq,
          lookup_dictSet_other (show "env_aft" ≠ "env_bef" by decide)]
      · rw [if_neg ha, if_neg hb, ih]
        simp [lastTagged, List.filter_cons, hq,
          lookup_dictAppend_other (show "env_aft" ≠ "env_dur" by decide)]

/-! ### Claim theorems. -/

/-- C1: For an input of a header line, an utterance line, a
dependent-tier `%act` line, and a second utterance line, with header
retention enabled, once the second utterance line has been dispatched
the emitted lines are exactly the first turn's content — the header
line, the during-event, and the cleaned utterance — arranged in the
fixed `UnitTurn.to_list` field order (head, situation, before-events,
during-events, utterance, after-events), and the freshly opened turn
holds only the second utterance: no content of the second turn has been
emitted yet. -/
theorem c1_turn_aggregation_order :
    runSteps { header := { keep_data := true } } {}
        ["@Begin\n", "*CHI:\thello .\n", "%act:\topens box\n",
         "*MOT:\tokay .\n"] =
      .ok { processed := UnitTurn.to_list
              { head := ["@Begin\n"], sit := [], env_bef := [],
                env_dur := ["<ENV> opens box <sep> <0> </ENV>\n"],
                utt := ["<CHI> hello .\n"], env_aft := [] },
            turn := { speaker := "<MOT>",
                      utt := ["<MOT> okay .\n"] } } := rfl

/-- C2: With `utterance.keep_data = false`, `process_utterance` returns
before any rewrite stage runs (even on input whose stages would raise an
assertion), but it returns the bare pair `(False, '')` rather than the
`(bool, str, str)` triple its annotation and docstring promise. -/
theorem c2_keep_data_pair_bug :
    process_utterance { utterance := { keep_data := false } }
        "*CHI:\tword [! loudly]\n" = .ok (.pair false "") ∧
    process_utterance { utterance := { keep_data := false } }
        "*CHI:\thello .\n" = .ok (.pair false "") ∧
    (PyRet.pair false "").isTriple = false :=
  ⟨rfl, rfl, rfl⟩

/-- C3: With the `excluded` option at its default (enabled), the
`[+ exc]` postcode-family marker vetoes the whole utterance:
`process_paralinguistic` returns the empty string. -/
theorem c3_excluded_veto :
    process_paralinguistic {}
        "I think that maybe the cat is up the tree [+ exc]".toList =
      .ok "".toList := rfl

/-- C4: Under default scoped-marker options,
`process_paralinguistic "goed [: went] [*]"` returns exactly `"went"`:
the replacement identifier substitutes its event text while the
error-mark identifier deletes its own span, composed under the
descending-start-offset application. -/
theorem c4_replacement_error_mark :
    process_paralinguistic {} "goed [: went] [*]".toList =
      .ok "went".toList := rfl

/-- C5 counterexample: the nonverbal-symbol stage of
`process_utterance` rewrites the digit `0` inside the longer token `10`
as well — the claim that only a standalone `0` is replaced fails. -/
theorem c5_zero_in_token_counterexample :
    process_utterance defaultConfig "*CHI:\t10 .\n" =
      .ok (.triple true "<CHI>" "1<0> .\n") ∧
    ("1<0> .\n" : String) ≠ "10 .\n" :=
  ⟨rfl, by decide⟩

/-- C5 amended: the nonverbal-symbol substitution stage of
`process_utterance` (the `re.sub(r'0', …)` pass) replaces every
occurrence of the character `0`, standalone or embedded, keeping all
other characters. -/
theorem c5_zero_substitution_amended (marker : String) (l : List Char) :
    scanSub (charMat '0' marker.toList) l =
      l.flatMap (fun c => if c = '0' then marker.toList else [c]) :=
  scanSubF_charMat_flatMap '0' marker.toList l l.length (Nat.le_refl _)

/-- C6 counterexample: `process_unidentifiable` rewrites the letter
sequence `xxx` even inside the longer word `xxxx` — the claim that
substrings of longer words are never replaced fails. -/
theorem c6_substring_counterexample :
    process_unidentifiable {} "xxxx".toList = "<unk>x".toList ∧
    "<unk>x".toList ≠ "xxxx".toList :=
  ⟨rfl, by decide⟩

/-- C6 amended: `process_unidentifiable` replaces every leftmost
non-overlapping occurrence of the literals `xxx`, `yyy`, `www`; in
particular the spec's literal case holds: `"xxx yyy ww"` maps to
`"<unk> <unk> ww"` since `ww` contains no three-letter run. -/
theorem c6_unidentifiable_amended :
    process_unidentifiable {} "xxx yyy ww".toList =
      "<unk> <unk> ww".toList := rfl

/-- C7: `process_disfluencies` raises if and only if at least one of the
three handling options lies outside `{null, keep, unk}`, and the raised
error carries the offending configuration fragment; with all three
valid it returns normally. -/
theorem c7_disfluency_config_error (cfg : DisflCfg) (l : List Char) :
    isErr (process_disfluencies cfg l) =
      !(validHandle cfg.fragment && validHandle cfg.filler &&
        validHandle cfg.nonwords) ∧
    disflPayload (process_disfluencies cfg l) =
      (if validHandle cfg.fragment && validHandle cfg.filler &&
          validHandle cfg.nonwords then none else some cfg) := by
  unfold process_disfluencies
  cases hf : validHandle cfg.fragment with
  | false =>
    rw [disflPass_err hf '+' "fragment" cfg l]
    simp [isErr, disflPayload, bind, Except.bind, hf]
  | true =>
    obtain ⟨l1, h1⟩ := disflPass_ok hf '+' "fragment" cfg l
    simp only [h1, bind, Except.bind]
    cases hl : validHandle cfg.filler with
    | false =>
      rw [disflPass_err hl '-' "filler" cfg l1]
      simp [isErr, disflPayload, hf, hl]
    | true =>
      obtain ⟨l2, h2⟩ := disflPass_ok hl '-' "filler" cfg l1
      simp only [h2]
      cases hn : validHandle cfg.nonwords with
      | false =>
        rw [disflPass_err hn '~' "nonwords" cfg l2]
        simp [isErr, disflPayload, hf, hl, hn]
      | true =>
        obtain ⟨l3, h3⟩ := disflPass_ok hn '~' "nonwords" cfg l2
        simp only [h3]
        simp [isErr, disflPayload, hf, hl, hn]

/-- C8 counterexample: the stage pipeline is not idempotent on its own
output — on `"0 ."` the first application yields `"<0> ."`, and a second
application rewrites the `0` inside the nonverbal token, yielding
`"<<0>> ."`. -/
theorem c8_idempotence_counterexample :
    stagePipeline defaultConfig "0 .".toList = .ok "<0> .".toList ∧
    stagePipeline defaultConfig "<0> .".toList = .ok "<<0>> .".toList ∧
    "<0> .".toList ≠ "<<0>> .".toList :=
  ⟨rfl, rfl, by decide⟩

/-- C8 amended: the full stage pipeline (default configuration) is a
no-op — hence idempotent — on any text containing no stage-trigger
character and none of the three-letter unidentifiable tokens; full
idempotence fails because cleaned output can contain the nonverbal
token `<0>`, whose digit the nonverbal stage rewrites again. -/
theorem c8_pipeline_id_amended {l : List Char} (h : cleanText l = true) :
    stagePipeline defaultConfig l = .ok l :=
  stagePipeline_id h

theorem c8_pipeline_id_amended_witness :
    cleanText "hello .\n".toList = true ∧
    stagePipeline defaultConfig "hello .\n".toList =
      .ok "hello .\n".toList :=
  ⟨by decide, c8_pipeline_id_amended (by decide)⟩

/-- C9: In the synchrony fold of `split_sync_rel`, every `<dur>`-tagged
or unknown-tagged sub-event is accumulated in order into the during
bucket, while the before and after buckets keep only the last `<bef>` /
`<aft>` sub-event of the line (earlier ones are overwritten); the
concrete line `%act:<TAB><bef> waves <bef> claps <dur> sits` keeps only
`claps` in the before bucket. -/
theorem c9_sync_last_wins :
    (∀ ms : List (List Char × List Char),
      (syncFold ms [("env_dur", [])]).lookup "env_dur" =
        some (durEvents ms) ∧
      (syncFold ms [("env_dur", [])]).lookup "env_bef" =
        (lastTagged isBefP ms).map (fun p => [evStr p]) ∧
      (syncFold ms [("env_dur", [])]).lookup "env_aft" =
        (lastTagged isAftP ms).map (fun p => [evStr p])) ∧
    split_sync_rel {} "%act:\t<bef> waves <bef> claps <dur> sits\n" =
      .ok [("env_dur", ["sits"]), ("env_bef", ["claps"])] := by
  constructor
  · intro ms
    refine ⟨?_, ?_, ?_⟩
    · simpa using syncFold_dur ms [("env_dur", [])] [] rfl
    · rw [syncFold_bef]
      cases lastTagged isBefP ms <;> simp [List.lookup]
    · rw [syncFold_aft]
      cases lastTagged isAftP ms <;> simp [List.lookup]
  · rfl

/-- C10 counterexample: not every input whose stress block carries
non-empty event text raises the assertion — an earlier `[+ exc]` match
vetoes the whole utterance and returns the empty string before the
stress block is processed. -/
theorem c10_assertion_counterexample :
    process_paralinguistic {} "a [+ exc] b [! loud]".toList =
      .ok "".toList ∧
    (Except.ok "".toList : Except Err (List Char)) ≠
      .error .assertionError :=
  ⟨rfl, by intro h; exact Except.noConfusion h⟩

/-- C10 amended: a stress `[! …]` or contrastive-stress `[!! …]` block
whose event text is non-empty fails the internal assertion when its
match is processed (no earlier whole-utterance veto intervening):
`process_paralinguistic` raises `AssertionError`. -/
theorem c10_stress_assertion_amended :
    process_paralinguistic {} "word [! loudly]".toList =
      .error .assertionError ∧
    process_paralinguistic {} "word [!! loudly]".toList =
      .error .assertionError :=
  ⟨rfl, rfl⟩

end PyChildes
